import Mathlib

/-!
Verification of the chess-bench match orchestration core against its
natural-language specification.

The development shallowly embeds the Python source:

* `app/internal/ratings.py`  — the Elo rating update (floats modelled as ℝ).
* `app/internal/openrouter.py` — the SAN move extractor (`_extract_san`,
  including the regular-expression scan) and the retrying `get_move` protocol.
* `app/internal/orchestrator.py` — the scheduler state machine
  (`_process_pending_matches`, `_run_schedule`) over an explicit database
  state, and the game play loop (`_play_game` and its move-selection
  helpers) over a chess model.
* the subset of the `python-chess` library the orchestrator uses
  (board state, legal moves, SAN, terminal detection), i.e. the standard
  rules of chess.
-/

namespace Chessbench

/-- The `GameResult` enum of `app/models/game.py`: win / loss / draw, always
from the model's perspective. -/
inductive GameResult where
  | win
  | loss
  | draw
deriving DecidableEq, Repr

/-! ## Ratings (`app/internal/ratings.py`)

Python floats are modelled as real numbers; the module is pure arithmetic. -/

namespace Ratings

/-- Module constant `STOCKFISH_RATING = 3200.0`. -/
def STOCKFISH_RATING : ℝ := 3200

/-- Module constant `K_FACTOR = 32.0`. -/
def K_FACTOR : ℝ := 32

/-- Function `expected_score(player_rating, opponent_rating)`:
`1.0 / (1.0 + 10 ** ((opponent_rating - player_rating) / 400.0))`. -/
noncomputable def expected_score (player_rating opponent_rating : ℝ) : ℝ :=
  1 / (1 + (10 : ℝ) ^ ((opponent_rating - player_rating) / 400))

/-- Function `result_to_score(result)`: 1.0 for WIN, 0.5 for DRAW, 0.0 for
LOSS. -/
def result_to_score : GameResult → ℝ
  | .win => 1
  | .draw => 0.5
  | .loss => 0

/-- Function `adjust_rating(current_rating, result, opponent_rating)`:
`current_rating + K_FACTOR * (score - expected)`. -/
noncomputable def adjust_rating (current_rating : ℝ) (result : GameResult)
    (opponent_rating : ℝ) : ℝ :=
  current_rating + K_FACTOR * (result_to_score result - expected_score current_rating opponent_rating)

/-- The call `adjust_rating(current, result)` with the `opponent_rating`
parameter left at its Python default `STOCKFISH_RATING`. -/
noncomputable def adjust_rating_default (current_rating : ℝ) (result : GameResult) : ℝ :=
  adjust_rating current_rating result STOCKFISH_RATING

theorem expected_score_pos (p o : ℝ) : 0 < expected_score p o := by
  unfold expected_score
  have h : (0 : ℝ) < (10 : ℝ) ^ ((o - p) / 400) := Real.rpow_pos_of_pos (by norm_num) _
  positivity

theorem expected_score_lt_one (p o : ℝ) : expected_score p o < 1 := by
  unfold expected_score
  have h : (0 : ℝ) < (10 : ℝ) ^ ((o - p) / 400) := Real.rpow_pos_of_pos (by norm_num) _
  rw [div_lt_one (by linarith)]
  linarith

end Ratings

/-- C8: `adjust_rating` computes `r + 32·(score − 1/(1 + 10^((o − r)/400)))`
with score 1.0 / 0.5 / 0.0 for WIN / DRAW / LOSS, the opponent rating
defaults to 3200.0, and a 1200-rated win against the default opponent yields
exactly `1200 + 32·(1 − 1/(1 + 10^((3200 − 1200)/400)))`, strictly above
1200. -/
theorem ratings_adjust_rating_formula :
    (∀ r o : ℝ, Ratings.adjust_rating r .win o
        = r + 32 * (1 - 1 / (1 + (10 : ℝ) ^ ((o - r) / 400)))) ∧
    (∀ r o : ℝ, Ratings.adjust_rating r .draw o
        = r + 32 * (0.5 - 1 / (1 + (10 : ℝ) ^ ((o - r) / 400)))) ∧
    (∀ r o : ℝ, Ratings.adjust_rating r .loss o
        = r + 32 * (0 - 1 / (1 + (10 : ℝ) ^ ((o - r) / 400)))) ∧
    (∀ (r : ℝ) (res : GameResult),
        Ratings.adjust_rating_default r res = Ratings.adjust_rating r res 3200) ∧
    (Ratings.adjust_rating_default 1200 .win
        = 1200 + 32 * (1 - 1 / (1 + (10 : ℝ) ^ (((3200 : ℝ) - 1200) / 400)))) ∧
    (1200 < Ratings.adjust_rating_default 1200 .win) := by
  refine ⟨?_, ?_, ?_, ?_, ?_, ?_⟩
  · intro r o
    simp [Ratings.adjust_rating, Ratings.expected_score, Ratings.result_to_score,
      Ratings.K_FACTOR]
  · intro r o
    simp [Ratings.adjust_rating, Ratings.expected_score, Ratings.result_to_score,
      Ratings.K_FACTOR]
  · intro r o
    simp [Ratings.adjust_rating, Ratings.expected_score, Ratings.result_to_score,
      Ratings.K_FACTOR]
  · intro r res
    rfl
  · simp [Ratings.adjust_rating_default, Ratings.adjust_rating, Ratings.expected_score,
      Ratings.result_to_score, Ratings.K_FACTOR, Ratings.STOCKFISH_RATING]
  · have h := Ratings.expected_score_lt_one 1200 Ratings.STOCKFISH_RATING
    unfold Ratings.adjust_rating_default Ratings.adjust_rating
    simp only [Ratings.result_to_score, Ratings.K_FACTOR]
    nlinarith

/-- C9: the rating update is monotone in the result
(LOSS ≤ DRAW ≤ WIN for fixed ratings) and a draw against an equally rated
opponent leaves the rating unchanged. -/
theorem ratings_adjust_rating_monotone_and_draw_fixed :
    (∀ r1 r2 : ℝ,
        Ratings.adjust_rating r1 .loss r2 ≤ Ratings.adjust_rating r1 .draw r2 ∧
        Ratings.adjust_rating r1 .draw r2 ≤ Ratings.adjust_rating r1 .win r2) ∧
    (∀ r : ℝ, Ratings.adjust_rating r .draw r = r) := by
  constructor
  · intro r1 r2
    unfold Ratings.adjust_rating
    simp only [Ratings.result_to_score, Ratings.K_FACTOR]
    constructor <;> nlinarith
  · intro r
    unfold Ratings.adjust_rating Ratings.expected_score
    simp only [Ratings.result_to_score, Ratings.K_FACTOR, sub_self, zero_div,
      Real.rpow_zero]
    norm_num

/-! ## Move extraction (`app/internal/openrouter.py`, `_extract_san`)

The Python code scans the reply with `re.finditer` over the pattern

  `(?:MOVE:\s*)?([O0]-[O0]-[O0]|[O0]-[O0]|[KQRBN]?[a-h]?[1-8]?x?[a-h][1-8](?:=[QRBN])?[+#]?|[a-h][1-8])`

with `re.IGNORECASE`.  The matcher below implements exactly this pattern:
alternatives are tried in written order, optional pieces greedily with
backtracking, `finditer` yields non-overlapping matches left to right and
resumes at each match end. -/

namespace OpenRouter

/-- Character class `[a-h]` under `re.IGNORECASE`. -/
def isFileChar (c : Char) : Bool :=
  (97 ≤ c.toNat && c.toNat ≤ 104) || (65 ≤ c.toNat && c.toNat ≤ 72)

/-- Character class `[1-8]`. -/
def isRankChar (c : Char) : Bool :=
  49 ≤ c.toNat && c.toNat ≤ 56

/-- Character class `[KQRBN]` under `re.IGNORECASE`. -/
def isPieceChar (c : Char) : Bool :=
  c = 'K' || c = 'Q' || c = 'R' || c = 'B' || c = 'N' ||
  c = 'k' || c = 'q' || c = 'r' || c = 'b' || c = 'n'

/-- Character class `[QRBN]` (promotion piece) under `re.IGNORECASE`. -/
def isPromoChar (c : Char) : Bool :=
  c = 'Q' || c = 'R' || c = 'B' || c = 'N' ||
  c = 'q' || c = 'r' || c = 'b' || c = 'n'

/-- Character class `[O0]` under `re.IGNORECASE`. -/
def isCastleChar (c : Char) : Bool :=
  c = 'O' || c = 'o' || c = '0'

/-- Literal `x` under `re.IGNORECASE`. -/
def isXChar (c : Char) : Bool :=
  c = 'x' || c = 'X'

/-- Python regex `\s` (ASCII whitespace, which is also what `str.split()`
splits on for this input class). -/
def isPySpace (c : Char) : Bool :=
  c = ' ' || c = '\t' || c = '\n' || c = '\r' || c = '\x0b' || c = '\x0c'

/-- Alternative `[O0]-[O0]-[O0]`. -/
def matchCastle3 : List Char → Option (List Char × List Char)
  | c1 :: d1 :: c2 :: d2 :: c3 :: rest =>
    if isCastleChar c1 && d1 = '-' && isCastleChar c2 && d2 = '-' && isCastleChar c3 then
      some ([c1, d1, c2, d2, c3], rest)
    else none
  | _ => none

/-- Alternative `[O0]-[O0]`. -/
def matchCastle2 : List Char → Option (List Char × List Char)
  | c1 :: d1 :: c2 :: rest =>
    if isCastleChar c1 && d1 = '-' && isCastleChar c2 then
      some ([c1, d1, c2], rest)
    else none
  | _ => none

/-- Mandatory core `[a-h][1-8]` of the SAN alternative. -/
def matchCore : List Char → Option (List Char × List Char)
  | c1 :: c2 :: rest =>
    if isFileChar c1 && isRankChar c2 then some ([c1, c2], rest) else none
  | _ => none

/-- Greedy optional `(?:=[QRBN])?`. -/
def matchPromo : List Char → List Char × List Char
  | '=' :: p :: rest => if isPromoChar p then (['=', p], rest) else ([], '=' :: p :: rest)
  | l => ([], l)

/-- Greedy optional `[+#]?`. -/
def matchCheckSuffix : List Char → List Char × List Char
  | c :: rest => if c = '+' || c = '#' then ([c], rest) else ([], c :: rest)
  | l => ([], l)

/-- The tail `[a-h][1-8](?:=[QRBN])?[+#]?` after the optional elements. -/
def matchTail (l : List Char) : Option (List Char × List Char) :=
  match matchCore l with
  | none => none
  | some (m, r) =>
    let pr := matchPromo r
    let ck := matchCheckSuffix pr.2
    some (m ++ pr.1 ++ ck.1, ck.2)

/-- A greedy optional single-character element: try consuming first, then
the empty match (Python backtracking order for `?`). -/
def consumeOpt (p : Char → Bool) : List Char → List (List Char × List Char)
  | c :: rest => if p c then [([c], rest), ([], c :: rest)] else [([], c :: rest)]
  | [] => [([], [])]

/-- First successful branch, in order (regex backtracking). -/
def firstSome {α β : Type} (l : List α) (f : α → Option β) : Option β :=
  match l with
  | [] => none
  | a :: rest =>
    match f a with
    | some b => some b
    | none => firstSome rest f

/-- Alternative `[KQRBN]?[a-h]?[1-8]?x?[a-h][1-8](?:=[QRBN])?[+#]?`. -/
def matchSanAlt (l : List Char) : Option (List Char × List Char) :=
  firstSome (consumeOpt isPieceChar l) fun pc =>
    firstSome (consumeOpt isFileChar pc.2) fun fc =>
      firstSome (consumeOpt isRankChar fc.2) fun rc =>
        firstSome (consumeOpt isXChar rc.2) fun xc =>
          match matchTail xc.2 with
          | none => none
          | some (m, r) => some (pc.1 ++ fc.1 ++ rc.1 ++ xc.1 ++ m, r)

/-- Alternative `[a-h][1-8]` (subsumed by the SAN alternative but present in
the source pattern). -/
def matchBareSquare (l : List Char) : Option (List Char × List Char) :=
  matchCore l

/-- The capture group: the four alternatives in written order. -/
def matchGroupAt (l : List Char) : Option (List Char × List Char) :=
  match matchCastle3 l with
  | some r => some r
  | none =>
    match matchCastle2 l with
    | some r => some r
    | none =>
      match matchSanAlt l with
      | some r => some r
      | none => matchBareSquare l

/-- The optional prefix `(?:MOVE:\s*)?`, case-insensitive; returns the rest
after the greedily consumed whitespace when the literal matches. -/
def matchMovePrefix : List Char → Option (List Char)
  | m :: o :: v :: e :: c :: rest =>
    if (m = 'M' || m = 'm') && (o = 'O' || o = 'o') && (v = 'V' || v = 'v') &&
        (e = 'E' || e = 'e') && c = ':' then
      some (rest.dropWhile isPySpace)
    else none
  | _ => none

/-- One attempted match of the full pattern at the current position:
prefix-present is tried first, then prefix-absent (Python `?` backtracking).
Returns the capture group and the remainder after the whole match. -/
def matchFullAt (l : List Char) : Option (List Char × List Char) :=
  match matchMovePrefix l with
  | some rest =>
    match matchGroupAt rest with
    | some r => some r
    | none => matchGroupAt l
  | none => matchGroupAt l

/-- The `re.finditer` scan: at each position attempt a match; on success
emit the capture group and resume after the match, otherwise advance one
character.  Every match consumes at least one character, so fuel equal to
the input length is exact. -/
def scanAux : Nat → List Char → List (List Char)
  | 0, _ => []
  | _, [] => []
  | Nat.succ n, c :: rest =>
    match matchFullAt (c :: rest) with
    | some (g, r) => g :: scanAux n r
    | none => scanAux n rest

/-- Normalization `san.replace("0", "O")`. -/
def replace0 (l : List Char) : List Char :=
  l.map fun c => if c = '0' then 'O' else c

/-- All capture groups found by the pattern scan, normalized, in order of
appearance. -/
def patternCandidates (content : String) : List String :=
  (scanAux content.toList.length content.toList).map fun g => String.mk (replace0 g)

/-- Python `content.split()`: split on runs of whitespace, dropping empty
pieces. -/
def splitWsAux : List Char → List Char → List (List Char)
  | [], acc => if acc.isEmpty then [] else [acc.reverse]
  | c :: rest, acc =>
    if isPySpace c then
      if acc.isEmpty then splitWsAux rest [] else acc.reverse :: splitWsAux rest []
    else splitWsAux rest (c :: acc)

/-- The whitespace tokens of the reply, each normalized with `0 → O`
(the fallback path of `_extract_san`). -/
def whitespaceTokens (content : String) : List String :=
  (splitWsAux content.toList []).map fun t => String.mk (replace0 t)

/-- Static method `OpenRouterClient._extract_san(content, legal_moves)`:
last pattern candidate that lies in the legal set, else the first
whitespace token that does, else `None`. -/
def extract_san (content : String) (legal_moves : List String) : Option String :=
  let inLegal := (patternCandidates content).filter fun s => legal_moves.contains s
  match inLegal.getLast? with
  | some s => some s
  | none => (whitespaceTokens content).find? fun t => legal_moves.contains t

end OpenRouter

/-- C6: the extractor returns the last pattern candidate (after `0 → O`
normalization) that lies in the legal set; if no pattern candidate matches
it returns the first whitespace token whose normalization is exactly legal;
and on the two concrete replies it extracts `Nf3` resp. `O-O`. -/
theorem extractor_last_candidate_and_token_fallback :
    (∀ (content : String) (L : List String),
        (OpenRouter.patternCandidates content).filter (fun s => L.contains s) ≠ [] →
        OpenRouter.extract_san content L
          = ((OpenRouter.patternCandidates content).filter (fun s => L.contains s)).getLast?) ∧
    (∀ (content : String) (L : List String),
        (OpenRouter.patternCandidates content).filter (fun s => L.contains s) = [] →
        OpenRouter.extract_san content L
          = (OpenRouter.whitespaceTokens content).find? (fun t => L.contains t)) ∧
    OpenRouter.extract_san "I think Nf3 is best. MOVE: Nf3" ["Nf3"] = some "Nf3" ∧
    OpenRouter.extract_san ("I" ++ String.singleton (Char.ofNat 39) ++ "ll castle. 0-0")
        ["O-O"] = some "O-O" := by
  have hdef : ∀ (content : String) (L : List String),
      OpenRouter.extract_san content L
        = match ((OpenRouter.patternCandidates content).filter
            (fun s => L.contains s)).getLast? with
          | some s => some s
          | none => (OpenRouter.whitespaceTokens content).find? (fun t => L.contains t) :=
    fun _ _ => rfl
  refine ⟨?_, ?_, by decide, by decide⟩
  · intro content L h
    rcases hl : ((OpenRouter.patternCandidates content).filter
        (fun s => L.contains s)).getLast? with _ | s
    · exact absurd (List.getLast?_eq_none_iff.mp hl) h
    · rw [hdef, hl]
  · intro content L h
    rw [hdef, h]
    rfl

/-- Witness: the general clauses of the extractor theorem applied at a
concrete reply and legal set. -/
theorem extractor_last_candidate_witness :
    OpenRouter.extract_san "MOVE: e4" ["e4"]
      = ((OpenRouter.patternCandidates "MOVE: e4").filter
          (fun s => (["e4"] : List String).contains s)).getLast? :=
  extractor_last_candidate_and_token_fallback.1 "MOVE: e4" ["e4"] (by decide)

/-! ## Scheduler state machine (`app/internal/orchestrator.py`)

The persistence store is embedded as an explicit state (`DB`) holding the
four tables; session point lookups become `find?` by id, mutations become
list maps.  The play loop is a parameter of `runSchedule` (an effect on the
state that either raises or returns an optional `GameResult`), so that the
scheduler claims quantify over every behaviour of a game. -/

namespace Orchestrator

/-- The `MatchStatus` enum of `app/models/schedule.py`. -/
inductive MatchStatus where
  | pending
  | running
  | completed
  | failed
deriving DecidableEq, Repr

/-- The `MoveSide` enum of `app/models/move.py`. -/
inductive MoveSide where
  | white
  | black
deriving DecidableEq, Repr

/-- A `MatchSchedule` row (id, model reference, requested time, status,
optional linked game). -/
structure ScheduleRec where
  id : Nat
  modelId : Nat
  scheduledFor : Nat
  status : MatchStatus
  gameId : Option Nat
deriving DecidableEq, Repr

/-- A `Model` row (the fields the core reads or writes). -/
structure ModelRec where
  id : Nat
  rating : ℝ
  isActive : Bool
  lastActiveAt : Option Nat

/-- A `Game` row (the fields the core reads or writes). -/
structure GameRec where
  id : Nat
  modelId : Nat
  result : Option GameResult
  movesCount : Nat
  completedAt : Option Nat
  opening : Option String
  pgnPath : Option String
deriving DecidableEq, Repr

/-- A `Move` row recorded by the play loop. -/
structure MoveRow where
  gameId : Nat
  ply : Nat
  side : MoveSide
  san : String
deriving DecidableEq, Repr

/-- The persisted state: the four tables plus the autoincrement counter for
`Game` ids (allocated at `session.flush()`). -/
structure DB where
  schedules : List ScheduleRec
  models : List ModelRec
  games : List GameRec
  moveRows : List MoveRow
  nextGameId : Nat

/-- Point lookup `session.get(MatchSchedule, sid)`. -/
def DB.getSchedule (db : DB) (sid : Nat) : Option ScheduleRec :=
  db.schedules.find? fun s => s.id == sid

/-- Point lookup `session.get(Model, mid)`. -/
def DB.getModel (db : DB) (mid : Nat) : Option ModelRec :=
  db.models.find? fun m => m.id == mid

/-- Point lookup `session.get(Game, gid)`. -/
def DB.getGame (db : DB) (gid : Nat) : Option GameRec :=
  db.games.find? fun g => g.id == gid

/-- Committed update of one schedule row. -/
def DB.mapSchedule (db : DB) (sid : Nat) (f : ScheduleRec → ScheduleRec) : DB :=
  { db with schedules := db.schedules.map fun s => if s.id == sid then f s else s }

/-- Assignment `schedule.status = st` followed by commit. -/
def DB.setScheduleStatus (db : DB) (sid : Nat) (st : MatchStatus) : DB :=
  db.mapSchedule sid fun s => { s with status := st }

/-- Assignment `schedule.game_id = gid` followed by commit. -/
def DB.setScheduleGame (db : DB) (sid : Nat) (gid : Option Nat) : DB :=
  db.mapSchedule sid fun s => { s with gameId := gid }

/-- Committed update of one model row. -/
def DB.mapModel (db : DB) (mid : Nat) (f : ModelRec → ModelRec) : DB :=
  { db with models := db.models.map fun m => if m.id == mid then f m else m }

/-- Status of one schedule, as observed through a point lookup. -/
def statusOf (db : DB) (sid : Nat) : Option MatchStatus :=
  (db.getSchedule sid).map fun s => s.status

/-- The schedule ids present in the store. -/
def schedIds (db : DB) : List Nat :=
  db.schedules.map fun s => s.id

/-- The game ids present in the store. -/
def gameIds (db : DB) : List Nat :=
  db.games.map fun g => g.id

/-- The rating column, keyed by model id. -/
noncomputable def ratingsOf (db : DB) : List (Nat × ℝ) :=
  db.models.map fun m => (m.id, m.rating)

/-- Outcome of one invocation of the play loop on the state it was given:
either it raises (any `Exception`) after having made some committed
mutations, or it returns an optional `GameResult`. -/
inductive PlayEffect where
  | raises (db : DB)
  | returns (db : DB) (result : Option GameResult)

/-- The state left behind by a play-loop invocation. -/
def PlayEffect.state : PlayEffect → DB
  | .raises db => db
  | .returns db _ => db

/-- A play loop: given the committed state, the fresh game id and the model
id, produce an effect.  `GameOrchestrator._play_game` is one such function;
the scheduler claims hold for every function of this shape that respects
the stated frame conditions. -/
def PlayFun : Type :=
  DB → Nat → Nat → PlayEffect

/-- The fresh `Game(model_id=model.id)` row added by `_run_schedule`
(columns at their declared defaults, id from the autoincrement counter). -/
def newGame (gid mid : Nat) : GameRec :=
  { id := gid, modelId := mid, result := none, movesCount := 0,
    completedAt := none, opening := none, pgnPath := none }

/-- Result of the part of `_run_schedule` before the play loop. -/
inductive ClaimOutcome where
  | noop
  | modelFailed
  | claimed (db2 : DB) (gameId modelId : Nat)

/-- The part of `_run_schedule` before the play loop: re-fetch, no-op if
missing or not PENDING, FAILED if the model is missing or inactive, else
claim the schedule (RUNNING), create the `Game` row, link it and commit.
The claimed outcome carries the committed state, the new game id and the
model id handed to the play loop. -/
def claimPendingStep (db : DB) (scheduleId : Nat) : ClaimOutcome :=
  match db.getSchedule scheduleId with
  | none => .noop
  | some schedule =>
    if schedule.status ≠ .pending then .noop
    else
      match db.getModel schedule.modelId with
      | none => .modelFailed
      | some model =>
        if ¬ model.isActive then .modelFailed
        else
          let gameId := db.nextGameId
          let db1 : DB := { db with
            games := db.games ++ [newGame gameId model.id],
            nextGameId := gameId + 1 }
          let db2 := (db1.setScheduleStatus scheduleId .running).setScheduleGame
            scheduleId (some gameId)
          .claimed db2 gameId model.id

/-- The rating-update block of `_run_schedule`: only a game whose stored
result is set mutates the model row (rating via `adjust_rating` with the
default opponent, and the last-active timestamp). -/
noncomputable def applyRating (now modelId : Nat) (db4 : DB) (dbGame : GameRec) : DB :=
  match dbGame.result with
  | some res =>
    db4.mapModel modelId fun m =>
      { m with
        rating := Ratings.adjust_rating_default m.rating res
        lastActiveAt := some now }
  | none => db4

/-- The success path of `_run_schedule` after the play loop returned:
re-fetch game and schedule (returning as-is when either vanished), mark
COMPLETED, and when not in dry-run mode and the play loop returned a truthy
result, apply the rating update to the model of a game whose stored result
is set. -/
noncomputable def finishReturns (dryRun : Bool) (now : Nat)
    (scheduleId gameId modelId : Nat) (db3 : DB) (result : Option GameResult) : DB :=
  match db3.getGame gameId with
  | none => db3
  | some _ =>
    match db3.getSchedule scheduleId with
    | none => db3
    | some _ =>
      if !dryRun && result.isSome then
        match (db3.setScheduleStatus scheduleId .completed).getModel modelId,
            (db3.setScheduleStatus scheduleId .completed).getGame gameId with
        | some _, some dbGame =>
          applyRating now modelId (db3.setScheduleStatus scheduleId .completed) dbGame
        | some _, none => db3.setScheduleStatus scheduleId .completed
        | none, _ => db3.setScheduleStatus scheduleId .completed
      else db3.setScheduleStatus scheduleId .completed

/-- The part of `_run_schedule` after the play loop: FAILED on an
exception (`except Exception` boundary), `finishReturns` on a normal
return. -/
noncomputable def runScheduleAfterPlay (dryRun : Bool) (now : Nat)
    (scheduleId gameId modelId : Nat) : PlayEffect → DB
  | .raises db3 => db3.setScheduleStatus scheduleId .failed
  | .returns db3 result => finishReturns dryRun now scheduleId gameId modelId db3 result

/-- Method `GameOrchestrator._run_schedule(schedule_id)`: the pre-play
step, then the play loop, then the post-play step.  The `except Exception`
boundary of the source is the `.raises` case of `runScheduleAfterPlay`:
every play-loop outcome yields a state, never a propagated exception. -/
noncomputable def runSchedule (dryRun : Bool) (now : Nat) (play : PlayFun)
    (db : DB) (scheduleId : Nat) : DB :=
  match claimPendingStep db scheduleId with
  | .noop => db
  | .modelFailed => db.setScheduleStatus scheduleId .failed
  | .claimed db2 gameId modelId =>
    runScheduleAfterPlay dryRun now scheduleId gameId modelId
      (play db2 gameId modelId)

/-- Ordering on schedule rows used by `order_by(MatchSchedule.scheduled_for)`. -/
def schedLe (a b : ScheduleRec) : Prop :=
  a.scheduledFor ≤ b.scheduledFor

instance : DecidableRel schedLe := fun a b => Nat.decLe a.scheduledFor b.scheduledFor

instance : IsTotal ScheduleRec schedLe := ⟨fun a b => Nat.le_total a.scheduledFor b.scheduledFor⟩

instance : IsTrans ScheduleRec schedLe := ⟨fun _ _ _ => Nat.le_trans⟩

/-- The conversion pass of `_process_pending_matches`: each filter entry is
`int(mid)` which either yields an integer or raises and is skipped.  An
entry is embedded as `some n` (convertible, value `n`) or `none`
(`TypeError` / `ValueError`). -/
def convertedIds (modelIds : Option (List (Option Int))) : Option (List Int) :=
  modelIds.map fun l => l.filterMap id

/-- The query of `_process_pending_matches`: schedules with status PENDING,
restricted to the converted id set only when that set is truthy
(Python `if ids:` — `None` and the empty set are both falsy), ordered by
requested time ascending. -/
def pendingDispatchList (db : DB) (modelIds : Option (List (Option Int))) : List ScheduleRec :=
  let base := db.schedules.filter fun s => s.status == .pending
  let filtered :=
    match convertedIds modelIds with
    | none => base
    | some ids =>
      if ids.isEmpty then base
      else base.filter fun s => ids.contains (s.modelId : Int)
  List.insertionSort schedLe filtered

/-- Method `GameOrchestrator._process_pending_matches(model_ids)`:
dispatch each selected schedule in order, one at a time. -/
noncomputable def processPending (dryRun : Bool) (now : Nat) (play : PlayFun)
    (db : DB) (modelIds : Option (List (Option Int))) : DB :=
  (pendingDispatchList db modelIds).foldl
    (fun d s => runSchedule dryRun now play d s.id) db

/-- Example schedule used to refute the stated filter semantics. -/
def exSchedule : ScheduleRec :=
  { id := 1, modelId := 1, scheduledFor := 0, status := .pending, gameId := none }

/-- Example store holding exactly the one pending schedule (and no model
row for it). -/
def exDb : DB :=
  { schedules := [exSchedule], models := [], games := [], moveRows := [], nextGameId := 1 }

/-- Frame condition satisfied by `_play_game`: the play loop neither adds
nor removes schedule rows (it never touches the schedules table). -/
def preservesSchedIds (play : PlayFun) : Prop :=
  ∀ (d : DB) (g m : Nat), schedIds ((play d g m).state) = schedIds d

/-- Frame condition satisfied by `_play_game`: the play loop neither adds
nor removes game rows (it only updates the fields of its own game). -/
def preservesGameIds (play : PlayFun) : Prop :=
  ∀ (d : DB) (g m : Nat), gameIds ((play d g m).state) = gameIds d

/-- Frame condition satisfied by `_play_game`: the play loop never writes
the rating column (it touches only `last_active_at` on the model row). -/
def preservesRatings (play : PlayFun) : Prop :=
  ∀ (d : DB) (g m : Nat), ratingsOf ((play d g m).state) = ratingsOf d

/-- A play loop that raises immediately, used to witness the scheduler
theorems. -/
def exPlayRaise : PlayFun := fun d _ _ => .raises d

/-- A play loop that returns immediately without a result, used to witness
the scheduler theorems. -/
def exPlayReturn : PlayFun := fun d _ _ => .returns d none

/-- Example model row. -/
def exModel : ModelRec :=
  { id := 1, rating := 1200, isActive := true, lastActiveAt := none }

/-- Example store with one pending schedule and its active model. -/
def exDbClaimable : DB :=
  { schedules := [exSchedule], models := [exModel], games := [], moveRows := [],
    nextGameId := 1 }

/-- The schedule row of `exDbClaimable` once claimed. -/
def exScheduleRunning : ScheduleRec :=
  { id := 1, modelId := 1, scheduledFor := 0, status := .running, gameId := some 1 }

/-- The state `exDbClaimable` reaches after the pre-play step claims its
schedule: RUNNING, game 1 created and linked, autoincrement advanced. -/
def exDbClaimed : DB :=
  { schedules := [exScheduleRunning], models := [exModel], games := [newGame 1 1],
    moveRows := [], nextGameId := 2 }

/-- A schedule row that is already COMPLETED. -/
def exScheduleDone : ScheduleRec :=
  { id := 1, modelId := 1, scheduledFor := 0, status := .completed, gameId := none }

/-- Example store whose only schedule is already COMPLETED. -/
def exDbDone : DB :=
  { schedules := [exScheduleDone], models := [exModel], games := [], moveRows := [],
    nextGameId := 1 }

end Orchestrator

/-- C10 counterexample: with the filter `["x"]` (its only entry not
convertible to an integer, so the convertible set is empty) the claim says
no schedule may be dispatched, yet the code dispatches the pending
schedule — the empty converted set is falsy in Python, so the model-id
restriction is dropped — and `runSchedule` then marks it FAILED (its model
row is missing), a visible state change. -/
theorem scheduler_filter_counterexample :
    Orchestrator.pendingDispatchList Orchestrator.exDb (some [none])
        = [Orchestrator.exSchedule] ∧
    (([none] : List (Option Int)).filterMap id).contains
        ((Orchestrator.exSchedule.modelId : Nat) : Int) = false ∧
    Orchestrator.statusOf
        (Orchestrator.processPending false 0 (fun d _ _ => .raises d)
          Orchestrator.exDb (some [none])) 1
      = some .failed := by
  refine ⟨rfl, rfl, rfl⟩

theorem filterMap_id_filter_isSome (l : List (Option Int)) :
    (l.filter Option.isSome).filterMap id = l.filterMap id := by
  induction l with
  | nil => rfl
  | cons c t ih => cases c <;> simp [ih]

/-- C10 amended: with a filter whose convertible-entry set is nonempty,
`processPending` dispatches exactly the PENDING schedules whose model id is
in that set; with no filter, or a filter all of whose entries fail integer
conversion (the converted set is empty and hence falsy), it dispatches all
PENDING schedules; dispatch is in ascending order of requested time, one at
a time, and behaviour with a filter is identical to behaviour with the
invalid entries removed. -/
theorem scheduler_filter_dispatch :
    (∀ (db : Orchestrator.DB) (l : List (Option Int)), l.filterMap id ≠ [] →
        ∀ s : Orchestrator.ScheduleRec,
          s ∈ Orchestrator.pendingDispatchList db (some l) ↔
            s ∈ db.schedules ∧ s.status = .pending ∧ (s.modelId : Int) ∈ l.filterMap id) ∧
    (∀ (db : Orchestrator.DB) (l : List (Option Int)), l.filterMap id = [] →
        ∀ s : Orchestrator.ScheduleRec,
          s ∈ Orchestrator.pendingDispatchList db (some l) ↔
            s ∈ db.schedules ∧ s.status = .pending) ∧
    (∀ (db : Orchestrator.DB) (s : Orchestrator.ScheduleRec),
        s ∈ Orchestrator.pendingDispatchList db none ↔
          s ∈ db.schedules ∧ s.status = .pending) ∧
    (∀ (db : Orchestrator.DB) (filt : Option (List (Option Int))),
        (Orchestrator.pendingDispatchList db filt).Sorted Orchestrator.schedLe) ∧
    (∀ (db : Orchestrator.DB) (l : List (Option Int)),
        Orchestrator.pendingDispatchList db (some l)
          = Orchestrator.pendingDispatchList db (some (l.filter Option.isSome))) ∧
    (∀ (dryRun : Bool) (now : Nat) (play : Orchestrator.PlayFun)
        (db : Orchestrator.DB) (filt : Option (List (Option Int))),
        Orchestrator.processPending dryRun now play db filt
          = (Orchestrator.pendingDispatchList db filt).foldl
              (fun d s => Orchestrator.runSchedule dryRun now play d s.id) db) := by
  refine ⟨?_, ?_, ?_, ?_, ?_, fun _ _ _ _ _ => rfl⟩
  · intro db l h s
    have hne : (l.filterMap id).isEmpty = false := by
      cases hx : l.filterMap id with
      | nil => exact absurd hx h
      | cons a t => rfl
    simp [Orchestrator.pendingDispatchList, Orchestrator.convertedIds, hne,
      (List.perm_insertionSort _ _).mem_iff, List.mem_filter, and_assoc]
    tauto
  · intro db l h s
    simp [Orchestrator.pendingDispatchList, Orchestrator.convertedIds, h,
      (List.perm_insertionSort _ _).mem_iff, List.mem_filter]
  · intro db s
    simp [Orchestrator.pendingDispatchList, Orchestrator.convertedIds,
      (List.perm_insertionSort _ _).mem_iff, List.mem_filter]
  · intro db filt
    exact List.sorted_insertionSort Orchestrator.schedLe _
  · intro db l
    simp [Orchestrator.pendingDispatchList, Orchestrator.convertedIds,
      filterMap_id_filter_isSome]

/-- Witness: the nonempty-filter clause of the dispatch theorem at a
concrete store and filter. -/
theorem scheduler_filter_dispatch_witness :
    Orchestrator.exSchedule ∈
        Orchestrator.pendingDispatchList Orchestrator.exDb (some [some 1]) ↔
      Orchestrator.exSchedule ∈ Orchestrator.exDb.schedules ∧
        Orchestrator.exSchedule.status = .pending ∧
        ((Orchestrator.exSchedule.modelId : Nat) : Int) ∈
          ([some 1] : List (Option Int)).filterMap id :=
  scheduler_filter_dispatch.1 Orchestrator.exDb [some 1] (by decide)
    Orchestrator.exSchedule

namespace Orchestrator

theorem find?_map_ite {α : Type} (idf : α → Nat) (k : Nat) (f : α → α)
    (hf : ∀ a, idf (f a) = idf a) (l : List α) :
    (l.map fun a => if idf a == k then f a else a).find? (fun a => idf a == k)
      = (l.find? fun a => idf a == k).map f := by
  induction l with
  | nil => rfl
  | cons a t ih =>
    simp only [List.map_cons]
    by_cases hb : idf a = k
    · have h1 : (if idf a == k then f a else a) = f a := by simp [hb]
      rw [h1, List.find?_cons_of_pos _ (by simp [hf, hb]),
        List.find?_cons_of_pos _ (by simp [hb])]
      rfl
    · have h1 : (if idf a == k then f a else a) = a := by simp [hb]
      rw [h1, List.find?_cons_of_neg _ (by simp [hb]),
        List.find?_cons_of_neg _ (by simp [hb])]
      exact ih

theorem getSchedule_mapSchedule (db : DB) (sid : Nat) (f : ScheduleRec → ScheduleRec)
    (hf : ∀ s, (f s).id = s.id) :
    (db.mapSchedule sid f).getSchedule sid = (db.getSchedule sid).map f := by
  unfold DB.getSchedule DB.mapSchedule
  exact find?_map_ite (fun s => s.id) sid f hf db.schedules

theorem statusOf_setScheduleStatus (db : DB) (sid : Nat) (st : MatchStatus) :
    statusOf (db.setScheduleStatus sid st) sid
      = (db.getSchedule sid).map fun _ => st := by
  unfold statusOf DB.setScheduleStatus
  rw [getSchedule_mapSchedule db sid (fun s => { s with status := st }) (fun s => rfl)]
  cases db.getSchedule sid <;> rfl

theorem schedIds_mapSchedule (db : DB) (sid : Nat) (f : ScheduleRec → ScheduleRec)
    (hf : ∀ s, (f s).id = s.id) :
    schedIds (db.mapSchedule sid f) = schedIds db := by
  unfold schedIds DB.mapSchedule
  simp only [List.map_map]
  apply List.map_congr_left
  intro a _
  by_cases hb : a.id = sid <;> simp [Function.comp, hb, hf]

theorem mem_schedIds_of_getSchedule {db : DB} {sid : Nat} {s : ScheduleRec}
    (h : db.getSchedule sid = some s) : sid ∈ schedIds db := by
  have hm := List.mem_of_find?_eq_some h
  have hp := List.find?_some h
  have hid : s.id = sid := by simpa using hp
  exact hid ▸ List.mem_map_of_mem (fun x => x.id) hm

theorem getSchedule_isSome_of_mem {db : DB} {sid : Nat} (h : sid ∈ schedIds db) :
    (db.getSchedule sid).isSome := by
  obtain ⟨s, hs, hid⟩ := List.mem_map.mp h
  unfold DB.getSchedule
  rw [List.find?_isSome]
  exact ⟨s, hs, by simp [hid]⟩

theorem mem_gameIds_of_getGame {db : DB} {gid : Nat} {g : GameRec}
    (h : db.getGame gid = some g) : gid ∈ gameIds db := by
  have hm := List.mem_of_find?_eq_some h
  have hp := List.find?_some h
  have hid : g.id = gid := by simpa using hp
  exact hid ▸ List.mem_map_of_mem (fun x => x.id) hm

theorem getGame_isSome_of_mem {db : DB} {gid : Nat} (h : gid ∈ gameIds db) :
    (db.getGame gid).isSome := by
  obtain ⟨g, hg, hid⟩ := List.mem_map.mp h
  unfold DB.getGame
  rw [List.find?_isSome]
  exact ⟨g, hg, by simp [hid]⟩

theorem claimPendingStep_of_getSchedule_none {db : DB} {sid : Nat}
    (h : db.getSchedule sid = none) : claimPendingStep db sid = .noop := by
  unfold claimPendingStep
  simp only [h]

theorem claimPendingStep_of_not_pending {db : DB} {sid : Nat} {s : ScheduleRec}
    (h : db.getSchedule sid = some s) (hst : s.status ≠ .pending) :
    claimPendingStep db sid = .noop := by
  unfold claimPendingStep
  simp only [h]
  rw [if_pos hst]

theorem claimPendingStep_noop_of_statusOf {db : DB} {sid : Nat} {st : MatchStatus}
    (h : statusOf db sid = some st) (hne : st ≠ .pending) :
    claimPendingStep db sid = .noop := by
  unfold statusOf at h
  cases hs : db.getSchedule sid with
  | none => rw [hs] at h; exact absurd h (by simp)
  | some s =>
    rw [hs] at h
    simp only [Option.map] at h
    have hss : s.status = st := by injection h
    exact claimPendingStep_of_not_pending hs (by rw [hss]; exact hne)

theorem claimPendingStep_modelFailed_of {db : DB} {sid : Nat} {s : ScheduleRec}
    (h : db.getSchedule sid = some s) (hst : s.status = .pending)
    (hm : ∀ m, db.getModel s.modelId = some m → m.isActive = false) :
    claimPendingStep db sid = .modelFailed := by
  unfold claimPendingStep
  simp only [h]
  rw [if_neg (by rw [hst]; exact fun hc => hc rfl)]
  cases hmm : db.getModel s.modelId with
  | none => rfl
  | some m =>
    simp only [hmm]
    rw [if_pos (by simp [hm m hmm])]

theorem claimPendingStep_modelFailed_inv {db : DB} {sid : Nat}
    (h : claimPendingStep db sid = .modelFailed) :
    ∃ s, db.getSchedule sid = some s := by
  unfold claimPendingStep at h
  cases hs : db.getSchedule sid with
  | none => simp only [hs] at h; exact absurd h (by simp)
  | some s => exact ⟨s, rfl⟩

theorem claimPendingStep_claimed_spec {db : DB} {sid : Nat} {db2 : DB} {gid mid : Nat}
    (h : claimPendingStep db sid = .claimed db2 gid mid) :
    schedIds db2 = schedIds db ∧ gameIds db2 = gameIds db ++ [gid] ∧
    gid = db.nextGameId ∧ ratingsOf db2 = ratingsOf db ∧ sid ∈ schedIds db := by
  unfold claimPendingStep at h
  cases hs : db.getSchedule sid with
  | none => simp only [hs] at h; exact absurd h (by simp)
  | some sch =>
    simp only [hs] at h
    by_cases hst : sch.status ≠ .pending
    · rw [if_pos hst] at h; exact absurd h (by simp)
    · rw [if_neg hst] at h
      cases hm : db.getModel sch.modelId with
      | none => simp only [hm] at h; exact absurd h (by simp)
      | some model =>
        simp only [hm] at h
        by_cases ha : ¬ model.isActive
        · rw [if_pos ha] at h; exact absurd h (by simp)
        · rw [if_neg ha] at h
          simp only [ClaimOutcome.claimed.injEq] at h
          obtain ⟨h2, hg, hm2⟩ := h
          subst h2
          subst hg
          subst hm2
          refine ⟨?_, ?_, rfl, rfl, mem_schedIds_of_getSchedule hs⟩
          · unfold DB.setScheduleGame DB.setScheduleStatus
            rw [schedIds_mapSchedule _ sid
                (fun s => { s with gameId := some db.nextGameId }) (fun s => rfl),
              schedIds_mapSchedule _ sid
                (fun s => { s with status := MatchStatus.running }) (fun s => rfl)]
            rfl
          · simp [DB.setScheduleGame, DB.setScheduleStatus, DB.mapSchedule, gameIds,
              newGame]

theorem runSchedule_noop {dR : Bool} {now : Nat} {play : PlayFun} {db : DB} {sid : Nat}
    (h : claimPendingStep db sid = .noop) :
    runSchedule dR now play db sid = db := by
  unfold runSchedule
  rw [h]

theorem runSchedule_modelFailed {dR : Bool} {now : Nat} {play : PlayFun} {db : DB}
    {sid : Nat} (h : claimPendingStep db sid = .modelFailed) :
    runSchedule dR now play db sid = db.setScheduleStatus sid .failed := by
  unfold runSchedule
  rw [h]

theorem runSchedule_claimed {dR : Bool} {now : Nat} {play : PlayFun} {db : DB}
    {sid : Nat} {db2 : DB} {gid mid : Nat}
    (h : claimPendingStep db sid = .claimed db2 gid mid) :
    runSchedule dR now play db sid
      = runScheduleAfterPlay dR now sid gid mid (play db2 gid mid) := by
  unfold runSchedule
  rw [h]

theorem afterPlay_raises (dR : Bool) (now sid gid mid : Nat) (db3 : DB) :
    runScheduleAfterPlay dR now sid gid mid (.raises db3)
      = db3.setScheduleStatus sid .failed := rfl

theorem statusOf_mapModel (db : DB) (mid : Nat) (f : ModelRec → ModelRec) (sid : Nat) :
    statusOf (db.mapModel mid f) sid = statusOf db sid := rfl

theorem gameIds_applyRating (now mid : Nat) (db4 : DB) (dbGame : GameRec) :
    gameIds (applyRating now mid db4 dbGame) = gameIds db4 := by
  unfold applyRating
  cases dbGame.result with
  | none => rfl
  | some res => rfl

theorem statusOf_applyRating (now mid : Nat) (db4 : DB) (dbGame : GameRec) (sid : Nat) :
    statusOf (applyRating now mid db4 dbGame) sid = statusOf db4 sid := by
  unfold applyRating
  cases dbGame.result with
  | none => rfl
  | some res => rfl

theorem ratingsOf_applyRating_cases (now mid : Nat) (db4 : DB) (dbGame : GameRec) :
    ratingsOf (applyRating now mid db4 dbGame) = ratingsOf db4 ∨
      dbGame.result.isSome = true := by
  unfold applyRating
  cases dbGame.result with
  | none => exact Or.inl rfl
  | some res => exact Or.inr rfl

theorem gameIds_finishReturns (dR : Bool) (now sid gid mid : Nat) (db3 : DB)
    (r : Option GameResult) :
    gameIds (finishReturns dR now sid gid mid db3 r) = gameIds db3 := by
  unfold finishReturns
  cases db3.getGame gid with
  | none => rfl
  | some g =>
    cases db3.getSchedule sid with
    | none => rfl
    | some s =>
      cases (!dR && r.isSome) with
      | false => rfl
      | true =>
        cases (db3.setScheduleStatus sid .completed).getModel mid with
        | none => rfl
        | some m =>
          cases (db3.setScheduleStatus sid .completed).getGame gid with
          | none => rfl
          | some dbg => exact gameIds_applyRating now mid _ dbg

theorem gameIds_afterPlay (dR : Bool) (now sid gid mid : Nat) (eff : PlayEffect) :
    gameIds (runScheduleAfterPlay dR now sid gid mid eff) = gameIds eff.state := by
  cases eff with
  | raises db3 => rfl
  | returns db3 r => exact gameIds_finishReturns dR now sid gid mid db3 r

theorem statusOf_finishReturns {sid gid : Nat} (dR : Bool) (now mid : Nat)
    (db3 : DB) (r : Option GameResult)
    (hs : sid ∈ schedIds db3) (hg : gid ∈ gameIds db3) :
    statusOf (finishReturns dR now sid gid mid db3 r) sid = some .completed := by
  obtain ⟨g, hgg⟩ := Option.isSome_iff_exists.mp (getGame_isSome_of_mem hg)
  obtain ⟨s, hss⟩ := Option.isSome_iff_exists.mp (getSchedule_isSome_of_mem hs)
  have hbase : statusOf (db3.setScheduleStatus sid .completed) sid = some .completed := by
    rw [statusOf_setScheduleStatus, hss]
    rfl
  unfold finishReturns
  simp only [hgg, hss]
  cases (!dR && r.isSome) with
  | false => exact hbase
  | true =>
    cases (db3.setScheduleStatus sid .completed).getModel mid with
    | none => exact hbase
    | some m =>
      cases (db3.setScheduleStatus sid .completed).getGame gid with
      | none => exact hbase
      | some dbg => exact (statusOf_applyRating now mid _ dbg sid).trans hbase

theorem ratingsOf_finishReturns_cases (dR : Bool) (now sid gid mid : Nat)
    (db3 : DB) (r : Option GameResult) :
    ratingsOf (finishReturns dR now sid gid mid db3 r) = ratingsOf db3 ∨
      ((!dR && r.isSome) = true ∧
        ∃ g, db3.getGame gid = some g ∧ g.result.isSome = true) := by
  unfold finishReturns
  cases hd : db3.getGame gid with
  | none => exact Or.inl rfl
  | some g =>
    cases db3.getSchedule sid with
    | none => exact Or.inl rfl
    | some s =>
      cases hc : (!dR && r.isSome) with
      | false => exact Or.inl rfl
      | true =>
        cases (db3.setScheduleStatus sid .completed).getModel mid with
        | none => exact Or.inl rfl
        | some m =>
          cases hgm : (db3.setScheduleStatus sid .completed).getGame gid with
          | none => exact Or.inl rfl
          | some dbg =>
            have hgm2 : db3.getGame gid = some dbg := hgm
            rcases ratingsOf_applyRating_cases now mid
                (db3.setScheduleStatus sid .completed) dbg with hkeep | hres
            · exact Or.inl hkeep
            · exact Or.inr ⟨rfl, dbg, hd ▸ hgm2, hres⟩

end Orchestrator

/-- C2: whenever `_run_schedule` reaches the play loop (the schedule was
claimed), an exception from the play loop leaves the schedule FAILED and
`runSchedule` still returns a state (the exception is absorbed at the
`except Exception` boundary and never propagates), while a normal return
leaves it COMPLETED — for every play loop that does not add or remove
schedule or game rows. -/
theorem scheduler_play_outcome_statuses :
    ∀ (dryRun : Bool) (now : Nat) (play : Orchestrator.PlayFun)
      (db : Orchestrator.DB) (sid : Nat) (db2 : Orchestrator.DB) (gid mid : Nat),
      Orchestrator.preservesSchedIds play →
      Orchestrator.preservesGameIds play →
      Orchestrator.claimPendingStep db sid = .claimed db2 gid mid →
      (∀ db3, play db2 gid mid = .raises db3 →
          Orchestrator.statusOf (Orchestrator.runSchedule dryRun now play db sid) sid
            = some .failed) ∧
      (∀ db3 r, play db2 gid mid = .returns db3 r →
          Orchestrator.statusOf (Orchestrator.runSchedule dryRun now play db sid) sid
            = some .completed) := by
  intro dR now play db sid db2 gid mid Hs Hg hclaim
  obtain ⟨hsch2, hgm2, _, _, hmem⟩ := Orchestrator.claimPendingStep_claimed_spec hclaim
  have hsid2 : sid ∈ Orchestrator.schedIds db2 := hsch2 ▸ hmem
  have hgid2 : gid ∈ Orchestrator.gameIds db2 := by
    rw [hgm2]
    exact List.mem_append_right _ (List.mem_singleton.mpr rfl)
  constructor
  · intro db3 hp
    have hs3 : sid ∈ Orchestrator.schedIds db3 := by
      have h := Hs db2 gid mid
      rw [hp] at h
      exact h ▸ hsid2
    rw [Orchestrator.runSchedule_claimed hclaim, hp, Orchestrator.afterPlay_raises,
      Orchestrator.statusOf_setScheduleStatus]
    obtain ⟨s, hss⟩ :=
      Option.isSome_iff_exists.mp (Orchestrator.getSchedule_isSome_of_mem hs3)
    rw [hss]
    rfl
  · intro db3 r hp
    have hs3 : sid ∈ Orchestrator.schedIds db3 := by
      have h := Hs db2 gid mid
      rw [hp] at h
      exact h ▸ hsid2
    have hg3 : gid ∈ Orchestrator.gameIds db3 := by
      have h := Hg db2 gid mid
      rw [hp] at h
      exact h ▸ hgid2
    rw [Orchestrator.runSchedule_claimed hclaim, hp]
    exact Orchestrator.statusOf_finishReturns dR now mid db3 r hs3 hg3

/-- Witness: the play-outcome theorem at a one-schedule store whose play
loop raises immediately; the schedule ends FAILED. -/
theorem scheduler_play_outcome_witness :
    Orchestrator.statusOf
        (Orchestrator.runSchedule false 0 Orchestrator.exPlayRaise
          Orchestrator.exDbClaimable 1) 1
      = some .failed :=
  (scheduler_play_outcome_statuses false 0 Orchestrator.exPlayRaise
      Orchestrator.exDbClaimable 1 Orchestrator.exDbClaimed 1 1
      (fun _ _ _ => rfl) (fun _ _ _ => rfl) rfl).1
    Orchestrator.exDbClaimed rfl

/-- C4: `runSchedule` is a no-op on a missing or already-claimed schedule;
on a PENDING schedule whose model is missing or inactive it only flips the
status to FAILED and creates no game; in general one run adds at most one
game id, and a second run on the same schedule id is the identity (so
repeated runs create at most one Game) — for every play loop that does not
add or remove schedule or game rows. -/
theorem scheduler_run_schedule_at_most_one_game :
    ∀ (dryRun : Bool) (now : Nat) (play : Orchestrator.PlayFun)
      (db : Orchestrator.DB) (sid : Nat),
      Orchestrator.preservesSchedIds play →
      Orchestrator.preservesGameIds play →
      (db.getSchedule sid = none →
        Orchestrator.runSchedule dryRun now play db sid = db) ∧
      (∀ sch, db.getSchedule sid = some sch → sch.status ≠ .pending →
        Orchestrator.runSchedule dryRun now play db sid = db) ∧
      (∀ sch, db.getSchedule sid = some sch → sch.status = .pending →
        (∀ m, db.getModel sch.modelId = some m → m.isActive = false) →
        Orchestrator.runSchedule dryRun now play db sid
            = db.setScheduleStatus sid .failed ∧
          (db.setScheduleStatus sid .failed).games = db.games) ∧
      (Orchestrator.gameIds (Orchestrator.runSchedule dryRun now play db sid)
          = Orchestrator.gameIds db ∨
        Orchestrator.gameIds (Orchestrator.runSchedule dryRun now play db sid)
          = Orchestrator.gameIds db ++ [db.nextGameId]) ∧
      Orchestrator.runSchedule dryRun now play
          (Orchestrator.runSchedule dryRun now play db sid) sid
        = Orchestrator.runSchedule dryRun now play db sid := by
  intro dR now play db sid Hs Hg
  refine ⟨?_, ?_, ?_, ?_, ?_⟩
  · intro h
    exact Orchestrator.runSchedule_noop (Orchestrator.claimPendingStep_of_getSchedule_none h)
  · intro sch h hst
    exact Orchestrator.runSchedule_noop (Orchestrator.claimPendingStep_of_not_pending h hst)
  · intro sch h hst hm
    exact ⟨Orchestrator.runSchedule_modelFailed
      (Orchestrator.claimPendingStep_modelFailed_of h hst hm), rfl⟩
  · cases hc : Orchestrator.claimPendingStep db sid with
    | noop => rw [Orchestrator.runSchedule_noop hc]; exact Or.inl rfl
    | modelFailed => rw [Orchestrator.runSchedule_modelFailed hc]; exact Or.inl rfl
    | claimed db2 gid mid =>
      obtain ⟨_, hgm2, hgid, _, _⟩ := Orchestrator.claimPendingStep_claimed_spec hc
      rw [Orchestrator.runSchedule_claimed hc, Orchestrator.gameIds_afterPlay]
      right
      have hpg : Orchestrator.gameIds ((play db2 gid mid).state)
          = Orchestrator.gameIds db2 := Hg db2 gid mid
      rw [hpg, hgm2, hgid]
  · cases hc : Orchestrator.claimPendingStep db sid with
    | noop =>
      rw [Orchestrator.runSchedule_noop hc, Orchestrator.runSchedule_noop hc]
    | modelFailed =>
      rw [Orchestrator.runSchedule_modelFailed hc]
      obtain ⟨s, hs⟩ := Orchestrator.claimPendingStep_modelFailed_inv hc
      have hst : Orchestrator.statusOf (db.setScheduleStatus sid .failed) sid
          = some .failed := by
        rw [Orchestrator.statusOf_setScheduleStatus, hs]
        rfl
      exact Orchestrator.runSchedule_noop
        (Orchestrator.claimPendingStep_noop_of_statusOf hst (by simp))
    | claimed db2 gid mid =>
      obtain ⟨hsch2, hgm2, _, _, hmem⟩ := Orchestrator.claimPendingStep_claimed_spec hc
      have hsid2 : sid ∈ Orchestrator.schedIds db2 := hsch2 ▸ hmem
      have hgid2 : gid ∈ Orchestrator.gameIds db2 := by
        rw [hgm2]
        exact List.mem_append_right _ (List.mem_singleton.mpr rfl)
      rw [Orchestrator.runSchedule_claimed hc]
      cases hp : play db2 gid mid with
      | raises db3 =>
        have hs3 : sid ∈ Orchestrator.schedIds db3 := by
          have h := Hs db2 gid mid
          rw [hp] at h
          exact h ▸ hsid2
        have hstf : Orchestrator.statusOf
            (Orchestrator.runScheduleAfterPlay dR now sid gid mid (.raises db3)) sid
            = some .failed := by
          rw [Orchestrator.afterPlay_raises, Orchestrator.statusOf_setScheduleStatus]
          obtain ⟨s, hss⟩ :=
            Option.isSome_iff_exists.mp (Orchestrator.getSchedule_isSome_of_mem hs3)
          rw [hss]
          rfl
        exact Orchestrator.runSchedule_noop
          (Orchestrator.claimPendingStep_noop_of_statusOf hstf (by simp))
      | returns db3 r =>
        have hs3 : sid ∈ Orchestrator.schedIds db3 := by
          have h := Hs db2 gid mid
          rw [hp] at h
          exact h ▸ hsid2
        have hg3 : gid ∈ Orchestrator.gameIds db3 := by
          have h := Hg db2 gid mid
          rw [hp] at h
          exact h ▸ hgid2
        have hstc := Orchestrator.statusOf_finishReturns dR now mid db3 r hs3 hg3
        exact Orchestrator.runSchedule_noop
          (Orchestrator.claimPendingStep_noop_of_statusOf hstc (by simp))

/-- Witness: the no-op clause of the at-most-one-game theorem at a store
whose only schedule is already COMPLETED. -/
theorem scheduler_run_schedule_at_most_one_game_witness :
    Orchestrator.runSchedule false 0 Orchestrator.exPlayRaise Orchestrator.exDbDone 1
      = Orchestrator.exDbDone :=
  (scheduler_run_schedule_at_most_one_game false 0 Orchestrator.exPlayRaise
      Orchestrator.exDbDone 1 (fun _ _ _ => rfl) (fun _ _ _ => rfl)).2.1
    Orchestrator.exScheduleDone rfl (by decide)

/-- C5: for every play loop that never writes the rating column, a dry-run
`runSchedule` leaves every model's rating unchanged, a play-loop failure
leaves every rating unchanged, and any rating change implies the run was
non-dry-run and the play loop returned successfully with a truthy result
for a game whose stored result is non-null. -/
theorem scheduler_rating_only_after_success :
    ∀ (dryRun : Bool) (now : Nat) (play : Orchestrator.PlayFun)
      (db : Orchestrator.DB) (sid : Nat),
      Orchestrator.preservesRatings play →
      (dryRun = true →
        Orchestrator.ratingsOf (Orchestrator.runSchedule dryRun now play db sid)
          = Orchestrator.ratingsOf db) ∧
      (∀ db2 gid mid db3, Orchestrator.claimPendingStep db sid = .claimed db2 gid mid →
        play db2 gid mid = .raises db3 →
        Orchestrator.ratingsOf (Orchestrator.runSchedule dryRun now play db sid)
          = Orchestrator.ratingsOf db) ∧
      (Orchestrator.ratingsOf (Orchestrator.runSchedule dryRun now play db sid)
          ≠ Orchestrator.ratingsOf db →
        dryRun = false ∧
        ∃ db2 gid mid db3 r,
          Orchestrator.claimPendingStep db sid = .claimed db2 gid mid ∧
          play db2 gid mid = .returns db3 r ∧ r.isSome = true ∧
          ∃ g, db3.getGame gid = some g ∧ g.result.isSome = true) := by
  intro dR now play db sid Hr
  refine ⟨?_, ?_, ?_⟩
  · intro hdr
    subst hdr
    cases hc : Orchestrator.claimPendingStep db sid with
    | noop => rw [Orchestrator.runSchedule_noop hc]
    | modelFailed => rw [Orchestrator.runSchedule_modelFailed hc]; rfl
    | claimed db2 gid mid =>
      obtain ⟨_, _, _, hrat2, _⟩ := Orchestrator.claimPendingStep_claimed_spec hc
      rw [Orchestrator.runSchedule_claimed hc]
      cases hp : play db2 gid mid with
      | raises db3 =>
        have h := Hr db2 gid mid
        rw [hp] at h
        rw [Orchestrator.afterPlay_raises]
        exact h.trans hrat2
      | returns db3 r =>
        have h := Hr db2 gid mid
        rw [hp] at h
        rcases Orchestrator.ratingsOf_finishReturns_cases true now sid gid mid db3 r
          with hkeep | ⟨hcond, _⟩
        · exact hkeep.trans (h.trans hrat2)
        · simp at hcond
  · intro db2 gid mid db3 hc hp
    obtain ⟨_, _, _, hrat2, _⟩ := Orchestrator.claimPendingStep_claimed_spec hc
    have h := Hr db2 gid mid
    rw [hp] at h
    rw [Orchestrator.runSchedule_claimed hc, hp, Orchestrator.afterPlay_raises]
    exact h.trans hrat2
  · intro hne
    cases hc : Orchestrator.claimPendingStep db sid with
    | noop => rw [Orchestrator.runSchedule_noop hc] at hne; exact absurd rfl hne
    | modelFailed =>
      rw [Orchestrator.runSchedule_modelFailed hc] at hne
      exact absurd rfl hne
    | claimed db2 gid mid =>
      obtain ⟨_, _, _, hrat2, _⟩ := Orchestrator.claimPendingStep_claimed_spec hc
      rw [Orchestrator.runSchedule_claimed hc] at hne
      cases hp : play db2 gid mid with
      | raises db3 =>
        have h := Hr db2 gid mid
        rw [hp] at h
        rw [hp, Orchestrator.afterPlay_raises] at hne
        exact absurd (h.trans hrat2) hne
      | returns db3 r =>
        have h := Hr db2 gid mid
        rw [hp] at h
        rw [hp] at hne
        rcases Orchestrator.ratingsOf_finishReturns_cases dR now sid gid mid db3 r
          with hkeep | ⟨hcond, g, hg, hgres⟩
        · exact absurd (hkeep.trans (h.trans hrat2)) hne
        · obtain ⟨hdr, hrs⟩ := Bool.and_eq_true_iff.mp hcond
          refine ⟨by simpa using hdr, db2, gid, mid, db3, r, rfl, hp, hrs, g, hg, hgres⟩

/-- Witness: the dry-run clause of the rating-frame theorem at a concrete
claimable store with an immediately returning play loop. -/
theorem scheduler_rating_only_after_success_witness :
    Orchestrator.ratingsOf
        (Orchestrator.runSchedule true 0 Orchestrator.exPlayReturn
          Orchestrator.exDbClaimable 1)
      = Orchestrator.ratingsOf Orchestrator.exDbClaimable :=
  (scheduler_rating_only_after_success true 0 Orchestrator.exPlayReturn
      Orchestrator.exDbClaimable 1 (fun _ _ _ => rfl)).1 rfl

/-! ## Chess model

The orchestrator drives games through the `python-chess` library (an
external dependency): board state, UCI parsing, legal-move generation,
SAN rendering, terminal detection with claimable draws, and `push`.  This
section models that subset, i.e. the standard rules of chess.  Squares are
numbered as in `python-chess`: a1 = 0, b1 = 1, ..., h8 = 63.  Move
generation below enumerates squares in ascending order; no theorem in this
development depends on the order in which legal moves are produced, only
on the generated set and on its (non)emptiness. -/

namespace Chess

inductive Color where
  | white
  | black
deriving DecidableEq, Repr

def Color.other : Color → Color
  | .white => .black
  | .black => .white

inductive PieceKind where
  | pawn
  | knight
  | bishop
  | rook
  | queen
  | king
deriving DecidableEq, Repr

structure Piece where
  color : Color
  kind : PieceKind
deriving DecidableEq, Repr

/-- Full position state: piece placement (64 entries), side to move,
castling rights, en passant target square, halfmove clock and fullmove
number — the components of a FEN. -/
structure Position where
  board : List (Option Piece)
  turn : Color
  castleWK : Bool
  castleWQ : Bool
  castleBK : Bool
  castleBQ : Bool
  ep : Option Nat
  halfmove : Nat
  fullmove : Nat
deriving DecidableEq, Repr

/-- A move in coordinate form (what `chess.Move` holds): origin square,
target square, optional promotion piece. -/
structure Move where
  fromSq : Nat
  toSq : Nat
  promo : Option PieceKind
deriving DecidableEq, Repr

def fileOf (sq : Nat) : Nat := sq % 8

def rankOf (sq : Nat) : Nat := sq / 8

def pieceAt (pos : Position) (sq : Nat) : Option Piece :=
  (pos.board.getD sq none)

def occupied (pos : Position) (sq : Nat) : Bool :=
  (pieceAt pos sq).isSome

/-- Offset a square by a (file, rank) delta, `none` off the board. -/
def shift (sq : Nat) (df dr : Int) : Option Nat :=
  let f : Int := (fileOf sq : Int) + df
  let r : Int := (rankOf sq : Int) + dr
  if 0 ≤ f ∧ f < 8 ∧ 0 ≤ r ∧ r < 8 then some (r * 8 + f).toNat else none

def knightOffsets : List (Int × Int) :=
  [(1, 2), (2, 1), (2, -1), (1, -2), (-1, -2), (-2, -1), (-2, 1), (-1, 2)]

def kingOffsets : List (Int × Int) :=
  [(1, 1), (1, 0), (1, -1), (0, 1), (0, -1), (-1, 1), (-1, 0), (-1, -1)]

def rookDirs : List (Int × Int) :=
  [(1, 0), (-1, 0), (0, 1), (0, -1)]

def bishopDirs : List (Int × Int) :=
  [(1, 1), (1, -1), (-1, 1), (-1, -1)]

/-- First piece encountered walking from `sq` in direction `(df, dr)`. -/
def rayFirst (pos : Position) : Nat → Nat → Int → Int → Option Piece
  | 0, _, _, _ => none
  | fuel + 1, sq, df, dr =>
    match shift sq df dr with
    | none => none
    | some s =>
      match pieceAt pos s with
      | some p => some p
      | none => rayFirst pos fuel s df dr

/-- Does any piece of colour `c` attack square `sq`?  Checked from the
target outward (equivalent to scanning attackers). -/
def attackedBy (pos : Position) (c : Color) (sq : Nat) : Bool :=
  let pawnDr : Int := match c with
    | .white => -1
    | .black => 1
  (knightOffsets.any fun o =>
    match shift sq o.1 o.2 with
    | some s => pieceAt pos s == some ⟨c, .knight⟩
    | none => false) ||
  (kingOffsets.any fun o =>
    match shift sq o.1 o.2 with
    | some s => pieceAt pos s == some ⟨c, .king⟩
    | none => false) ||
  (([(1 : Int), -1].any fun df =>
    match shift sq df pawnDr with
    | some s => pieceAt pos s == some ⟨c, .pawn⟩
    | none => false)) ||
  (rookDirs.any fun d =>
    match rayFirst pos 8 sq d.1 d.2 with
    | some p => p.color == c && (p.kind == .rook || p.kind == .queen)
    | none => false) ||
  (bishopDirs.any fun d =>
    match rayFirst pos 8 sq d.1 d.2 with
    | some p => p.color == c && (p.kind == .bishop || p.kind == .queen)
    | none => false)

/-- Square of the king of colour `c` (a single scan of the board list). -/
def kingSq (pos : Position) (c : Color) : Option Nat :=
  pos.board.findIdx? fun p => p == some ⟨c, .king⟩

def inCheck (pos : Position) (c : Color) : Bool :=
  match kingSq pos c with
  | some k => attackedBy pos c.other k
  | none => false

/-- Target squares reachable along a ray until a blocker (enemy square
included, own square excluded). -/
def rayTargets (pos : Position) (c : Color) : Nat → Nat → Int → Int → List Nat
  | 0, _, _, _ => []
  | fuel + 1, sq, df, dr =>
    match shift sq df dr with
    | none => []
    | some s =>
      match pieceAt pos s with
      | some p => if p.color == c then [] else [s]
      | none => s :: rayTargets pos c fuel s df dr

def offsetTargets (pos : Position) (c : Color) (sq : Nat) (offs : List (Int × Int)) :
    List Nat :=
  offs.filterMap fun o =>
    match shift sq o.1 o.2 with
    | none => none
    | some s =>
      match pieceAt pos s with
      | some p => if p.color == c then none else some s
      | none => some s

def promoKinds : List PieceKind := [.queen, .rook, .bishop, .knight]

/-- Pawn moves from `sq` (pushes, captures, en passant, promotions). -/
def pawnMoves (pos : Position) (c : Color) (sq : Nat) : List Move :=
  let dir : Int := match c with
    | .white => 1
    | .black => -1
  let startRank : Nat := match c with
    | .white => 1
    | .black => 6
  let promoRank : Nat := match c with
    | .white => 7
    | .black => 0
  let mk : Nat → List Move := fun t =>
    if rankOf t == promoRank then promoKinds.map fun k => ⟨sq, t, some k⟩
    else [⟨sq, t, none⟩]
  let pushes :=
    match shift sq 0 dir with
    | none => []
    | some t1 =>
      if occupied pos t1 then []
      else
        mk t1 ++
          (if rankOf sq == startRank then
            match shift sq 0 (2 * dir) with
            | none => []
            | some t2 => if occupied pos t2 then [] else [⟨sq, t2, none⟩]
          else [])
  let captures := ([(1 : Int), -1].flatMap fun df =>
    match shift sq df dir with
    | none => []
    | some t =>
      match pieceAt pos t with
      | some p => if p.color == c then [] else mk t
      | none => if pos.ep == some t then [⟨sq, t, none⟩] else [])
  pushes ++ captures

/-- Pseudo-legal moves of the piece on `sq` (castling handled separately). -/
def pieceMoves (pos : Position) (sq : Nat) : List Move :=
  match pieceAt pos sq with
  | none => []
  | some p =>
    if p.color != pos.turn then []
    else
      match p.kind with
      | .pawn => pawnMoves pos p.color sq
      | .knight => (offsetTargets pos p.color sq knightOffsets).map fun t => ⟨sq, t, none⟩
      | .king => (offsetTargets pos p.color sq kingOffsets).map fun t => ⟨sq, t, none⟩
      | .rook => (rookDirs.flatMap fun d => rayTargets pos p.color 8 sq d.1 d.2).map
          fun t => ⟨sq, t, none⟩
      | .bishop => (bishopDirs.flatMap fun d => rayTargets pos p.color 8 sq d.1 d.2).map
          fun t => ⟨sq, t, none⟩
      | .queen => ((rookDirs ++ bishopDirs).flatMap
          fun d => rayTargets pos p.color 8 sq d.1 d.2).map fun t => ⟨sq, t, none⟩

def pseudoMoves (pos : Position) : List Move :=
  pos.board.enum.flatMap fun cell =>
    match cell.2 with
    | some _ => pieceMoves pos cell.1
    | none => []

/-- Castling moves, with the rights, emptiness and not-through-check
conditions. -/
def castlingMoves (pos : Position) : List Move :=
  match pos.turn with
  | .white =>
    (if pos.castleWK && pieceAt pos 4 == some ⟨.white, .king⟩ &&
        pieceAt pos 7 == some ⟨.white, .rook⟩ &&
        !occupied pos 5 && !occupied pos 6 &&
        !attackedBy pos .black 4 && !attackedBy pos .black 5 &&
        !attackedBy pos .black 6 then
      [⟨4, 6, none⟩]
    else []) ++
    (if pos.castleWQ && pieceAt pos 4 == some ⟨.white, .king⟩ &&
        pieceAt pos 0 == some ⟨.white, .rook⟩ &&
        !occupied pos 1 && !occupied pos 2 && !occupied pos 3 &&
        !attackedBy pos .black 4 && !attackedBy pos .black 3 &&
        !attackedBy pos .black 2 then
      [⟨4, 2, none⟩]
    else [])
  | .black =>
    (if pos.castleBK && pieceAt pos 60 == some ⟨.black, .king⟩ &&
        pieceAt pos 63 == some ⟨.black, .rook⟩ &&
        !occupied pos 61 && !occupied pos 62 &&
        !attackedBy pos .white 60 && !attackedBy pos .white 61 &&
        !attackedBy pos .white 62 then
      [⟨60, 62, none⟩]
    else []) ++
    (if pos.castleBQ && pieceAt pos 60 == some ⟨.black, .king⟩ &&
        pieceAt pos 56 == some ⟨.black, .rook⟩ &&
        !occupied pos 57 && !occupied pos 58 && !occupied pos 59 &&
        !attackedBy pos .white 60 && !attackedBy pos .white 59 &&
        !attackedBy pos .white 58 then
      [⟨60, 58, none⟩]
    else [])

def setSq (b : List (Option Piece)) (sq : Nat) (v : Option Piece) :
    List (Option Piece) :=
  b.set sq v

/-- Apply a move to the position (piece transfer, en passant capture,
promotion, castling rook transfer, rights, ep square, clocks, turn). -/
def pushPos (pos : Position) (m : Move) : Position :=
  match pieceAt pos m.fromSq with
  | none => pos
  | some p =>
    let isEp := p.kind == .pawn && pos.ep == some m.toSq &&
      fileOf m.fromSq != fileOf m.toSq && !occupied pos m.toSq
    let isCapture := occupied pos m.toSq || isEp
    let placed : Piece := match m.promo with
      | some k => ⟨p.color, k⟩
      | none => p
    let b1 := setSq (setSq pos.board m.fromSq none) m.toSq (some placed)
    let b2 :=
      if isEp then
        setSq b1 (8 * rankOf m.fromSq + fileOf m.toSq) none
      else b1
    let b3 :=
      if p.kind == .king && m.fromSq == 4 && m.toSq == 6 then
        setSq (setSq b2 7 none) 5 (some ⟨.white, .rook⟩)
      else if p.kind == .king && m.fromSq == 4 && m.toSq == 2 then
        setSq (setSq b2 0 none) 3 (some ⟨.white, .rook⟩)
      else if p.kind == .king && m.fromSq == 60 && m.toSq == 62 then
        setSq (setSq b2 63 none) 61 (some ⟨.black, .rook⟩)
      else if p.kind == .king && m.fromSq == 60 && m.toSq == 58 then
        setSq (setSq b2 56 none) 59 (some ⟨.black, .rook⟩)
      else b2
    let touches : Nat → Bool := fun s => m.fromSq == s || m.toSq == s
    { board := b3
      turn := pos.turn.other
      castleWK := pos.castleWK && !(p.kind == .king && p.color == .white) && !touches 7
      castleWQ := pos.castleWQ && !(p.kind == .king && p.color == .white) && !touches 0
      castleBK := pos.castleBK && !(p.kind == .king && p.color == .black) && !touches 63
      castleBQ := pos.castleBQ && !(p.kind == .king && p.color == .black) && !touches 56
      ep :=
        if p.kind == .pawn && (rankOf m.toSq : Int) - (rankOf m.fromSq : Int) == 2 then
          some (m.fromSq + 8)
        else if p.kind == .pawn &&
            (rankOf m.fromSq : Int) - (rankOf m.toSq : Int) == 2 then
          some (m.fromSq - 8)
        else none
      halfmove := if p.kind == .pawn || isCapture then 0 else pos.halfmove + 1
      fullmove := if pos.turn == .black then pos.fullmove + 1 else pos.fullmove }

/-- Fully legal moves: pseudo-legal plus castling, filtered by king
safety after the move. -/
def legalMoves (pos : Position) : List Move :=
  (pseudoMoves pos ++ castlingMoves pos).filter fun m =>
    !(inCheck (pushPos pos m) pos.turn)

end Chess

namespace Chess

/-- The transposition key `python-chess` uses for repetition detection:
piece placement, side to move, castling rights, and the en passant square
only when an en passant capture is actually legal. -/
structure PositionKey where
  board : List (Option Piece)
  turn : Color
  rights : Bool × Bool × Bool × Bool
  epLegal : Option Nat
deriving DecidableEq, Repr

/-- Is some legal move an en passant capture?  (`python-chess`
`has_legal_en_passant`: it generates only the candidate en passant
captures — a pawn of the side to move diagonally adjacent below the target
square — and checks king safety for each.) -/
def hasLegalEp (pos : Position) : Bool :=
  match pos.ep with
  | none => false
  | some t =>
    let dir : Int := match pos.turn with
      | .white => 1
      | .black => -1
    [(1 : Int), -1].any fun df =>
      match shift t df (-dir) with
      | some s =>
        (pieceAt pos s == some ⟨pos.turn, .pawn⟩) &&
          !(inCheck (pushPos pos ⟨s, t, none⟩) pos.turn)
      | none => false

def key (pos : Position) : PositionKey :=
  { board := pos.board
    turn := pos.turn
    rights := (pos.castleWK, pos.castleWQ, pos.castleBK, pos.castleBQ)
    epLegal := if hasLegalEp pos then pos.ep else none }

/-- A board with its move-stack history, as `chess.Board` replays it:
the keys of all earlier positions of the game. -/
structure BoardState where
  pos : Position
  history : List PositionKey
deriving DecidableEq, Repr

def push (st : BoardState) (m : Move) : BoardState :=
  { pos := pushPos st.pos m, history := st.history ++ [key st.pos] }

/-- Number of times the current position has occurred (including now). -/
def countKey (st : BoardState) : Nat :=
  (st.history.filter fun k => k == key st.pos).length + 1

def isCheckmate (pos : Position) : Bool :=
  inCheck pos pos.turn && (legalMoves pos).isEmpty

def isStalemate (pos : Position) : Bool :=
  !inCheck pos pos.turn && (legalMoves pos).isEmpty

def isDarkSquare (sq : Nat) : Bool :=
  (fileOf sq + rankOf sq) % 2 == 0

def piecesOf (pos : Position) (c : Color) : List Piece :=
  pos.board.filterMap fun cell =>
    match cell with
    | some p => if p.color == c then some p else none
    | none => none

def bishopSquares (pos : Position) : List Nat :=
  pos.board.enum.filterMap fun cell =>
    match cell.2 with
    | some p => if p.kind == .bishop then some cell.1 else none
    | none => none

def anyKind (pos : Position) (k : PieceKind) : Bool :=
  pos.board.any fun cell =>
    match cell with
    | some p => p.kind == k
    | none => false

/-- `python-chess` `Board.has_insufficient_material(color)`. -/
def hasInsufficientMaterial (pos : Position) (c : Color) : Bool :=
  let mine := piecesOf pos c
  if mine.any fun p => p.kind == .pawn || p.kind == .rook || p.kind == .queen then
    false
  else if mine.any fun p => p.kind == .knight then
    decide (mine.length ≤ 2) &&
      !((piecesOf pos c.other).any fun p => p.kind != .king && p.kind != .queen)
  else if mine.any fun p => p.kind == .bishop then
    ((bishopSquares pos).all isDarkSquare || (bishopSquares pos).all fun s => !isDarkSquare s) &&
      !anyKind pos .pawn && !anyKind pos .knight
  else true

def isInsufficientMaterial (pos : Position) : Bool :=
  hasInsufficientMaterial pos .white && hasInsufficientMaterial pos .black

/-- `python-chess` `_is_halfmoves(n)`: clock at least `n` and some legal
move exists. -/
def isHalfmoves (pos : Position) (n : Nat) : Bool :=
  decide (n ≤ pos.halfmove) && !(legalMoves pos).isEmpty

def isSeventyFiveMoves (st : BoardState) : Bool :=
  isHalfmoves st.pos 150

def isFivefoldRepetition (st : BoardState) : Bool :=
  decide (5 ≤ countKey st)

def isFiftyMoves (st : BoardState) : Bool :=
  isHalfmoves st.pos 100

/-- Is the move a pawn move or a capture (resets the halfmove clock)? -/
def isZeroing (pos : Position) (m : Move) : Bool :=
  (match pieceAt pos m.fromSq with
    | some p => p.kind == .pawn
    | none => false) ||
  occupied pos m.toSq || pos.ep == some m.toSq

def canClaimFiftyMoves (st : BoardState) : Bool :=
  isFiftyMoves st ||
    (decide (99 ≤ st.pos.halfmove) &&
      (legalMoves st.pos).any fun m =>
        !isZeroing st.pos m && isFiftyMoves (push st m))

def canClaimThreefold (st : BoardState) : Bool :=
  decide (3 ≤ countKey st) ||
    (legalMoves st.pos).any fun m => decide (3 ≤ countKey (push st m))

/-- `board.is_game_over(claim_draw=True)`. -/
def isGameOver (st : BoardState) : Bool :=
  isCheckmate st.pos || isInsufficientMaterial st.pos || isStalemate st.pos ||
  isSeventyFiveMoves st || isFivefoldRepetition st ||
  canClaimFiftyMoves st || canClaimThreefold st

/-- `board.result(claim_draw=True)`: winner string on checkmate, draw
string on any (claimable) draw condition, `"*"` otherwise. -/
def resultString (st : BoardState) : String :=
  if isCheckmate st.pos then
    match st.pos.turn with
    | .black => "1-0"
    | .white => "0-1"
  else if isInsufficientMaterial st.pos || isStalemate st.pos ||
      isSeventyFiveMoves st || isFivefoldRepetition st ||
      canClaimFiftyMoves st || canClaimThreefold st then
    "1/2-1/2"
  else "*"

def fileChar (sq : Nat) : Char := Char.ofNat (97 + fileOf sq)

def rankChar (sq : Nat) : Char := Char.ofNat (49 + rankOf sq)

def squareName (sq : Nat) : String := String.mk [fileChar sq, rankChar sq]

def pieceLetter : PieceKind → String
  | .pawn => ""
  | .knight => "N"
  | .bishop => "B"
  | .rook => "R"
  | .queen => "Q"
  | .king => "K"

/-- `board.san(move)`: algebraic notation with disambiguation, capture
mark, promotion and check/checkmate suffix. -/
def san (pos : Position) (m : Move) : String :=
  let after := pushPos pos m
  let suffix :=
    if isCheckmate after then "#"
    else if inCheck after after.turn then "+"
    else ""
  match pieceAt pos m.fromSq with
  | none => "--"
  | some p =>
    if p.kind == .king && fileOf m.fromSq == 4 && fileOf m.toSq == 6 &&
        rankOf m.fromSq == rankOf m.toSq then
      "O-O" ++ suffix
    else if p.kind == .king && fileOf m.fromSq == 4 && fileOf m.toSq == 2 &&
        rankOf m.fromSq == rankOf m.toSq then
      "O-O-O" ++ suffix
    else
      let isEp := p.kind == .pawn && pos.ep == some m.toSq &&
        fileOf m.fromSq != fileOf m.toSq && !occupied pos m.toSq
      let isCapture := occupied pos m.toSq || isEp
      if p.kind == .pawn then
        (if isCapture then String.mk [fileChar m.fromSq] ++ "x" else "") ++
          squareName m.toSq ++
          (match m.promo with
            | some k => "=" ++ pieceLetter k
            | none => "") ++ suffix
      else
        let others := (legalMoves pos).filter fun m2 =>
          m2.toSq == m.toSq && m2.fromSq != m.fromSq &&
            pieceAt pos m2.fromSq == some p
        let sameRank := others.any fun m2 => rankOf m2.fromSq == rankOf m.fromSq
        let sameFile := others.any fun m2 => fileOf m2.fromSq == fileOf m.fromSq
        let disamb :=
          if others.isEmpty then ""
          else
            (if sameRank || !sameFile then String.mk [fileChar m.fromSq] else "") ++
              (if sameFile then String.mk [rankChar m.fromSq] else "")
        pieceLetter p.kind ++ disamb ++ (if isCapture then "x" else "") ++
          squareName m.toSq ++ suffix

/-- `chess.Move.from_uci` for ordinary 4/5-character strings. -/
def parseUci (s : String) : Option Move :=
  let sqOf : Char → Char → Option Nat := fun cf cr =>
    if 97 ≤ cf.toNat && cf.toNat ≤ 104 && 49 ≤ cr.toNat && cr.toNat ≤ 56 then
      some (8 * (cr.toNat - 49) + (cf.toNat - 97))
    else none
  let promoOf : Char → Option PieceKind := fun c =>
    if c = 'q' then some .queen
    else if c = 'r' then some .rook
    else if c = 'b' then some .bishop
    else if c = 'n' then some .knight
    else none
  match s.toList with
  | [a, b, c, d] =>
    match sqOf a b, sqOf c d with
    | some f, some t => some ⟨f, t, none⟩
    | _, _ => none
  | [a, b, c, d, pch] =>
    match sqOf a b, sqOf c d, promoOf pch with
    | some f, some t, some k => some ⟨f, t, some k⟩
    | _, _, _ => none
  | _ => none

/-- FEN serialization (`board.fen()`). -/
def fenRank (pos : Position) (r : Nat) : String :=
  let rec go (f : Nat) (empties : Nat) (acc : String) : String :=
    if h : f < 8 then
      match pieceAt pos (8 * r + f) with
      | none => go (f + 1) (empties + 1) acc
      | some p =>
        let letter :=
          match p.kind with
          | .pawn => "p"
          | .knight => "n"
          | .bishop => "b"
          | .rook => "r"
          | .queen => "q"
          | .king => "k"
        let letter := if p.color == .white then letter.toUpper else letter
        go (f + 1) 0
          (acc ++ (if empties == 0 then "" else toString empties) ++ letter)
    else acc ++ (if empties == 0 then "" else toString empties)
  termination_by 8 - f
  go 0 0 ""

def fen (pos : Position) : String :=
  let placement := String.intercalate "/"
    ((List.range 8).reverse.map fun r => fenRank pos r)
  let turnStr := match pos.turn with
    | .white => "w"
    | .black => "b"
  let rights :=
    (if pos.castleWK then "K" else "") ++ (if pos.castleWQ then "Q" else "") ++
    (if pos.castleBK then "k" else "") ++ (if pos.castleBQ then "q" else "")
  let rights := if rights == "" then "-" else rights
  let epStr := match pos.ep with
    | some t => squareName t
    | none => "-"
  placement ++ " " ++ turnStr ++ " " ++ rights ++ " " ++ epStr ++ " " ++
    toString pos.halfmove ++ " " ++ toString pos.fullmove

def wPiece (k : PieceKind) : Option Piece := some ⟨.white, k⟩

def bPiece (k : PieceKind) : Option Piece := some ⟨.black, k⟩

/-- The standard starting position (`chess.Board()`). -/
def initPos : Position :=
  { board :=
      [wPiece .rook, wPiece .knight, wPiece .bishop, wPiece .queen,
        wPiece .king, wPiece .bishop, wPiece .knight, wPiece .rook] ++
      List.replicate 8 (wPiece .pawn) ++
      List.replicate 32 none ++
      List.replicate 8 (bPiece .pawn) ++
      [bPiece .rook, bPiece .knight, bPiece .bishop, bPiece .queen,
        bPiece .king, bPiece .bishop, bPiece .knight, bPiece .rook]
    turn := .white
    castleWK := true
    castleWQ := true
    castleBK := true
    castleBQ := true
    ep := none
    halfmove := 0
    fullmove := 1 }

def initState : BoardState := { pos := initPos, history := [] }

end Chess

namespace OpenRouter

/-- Python `str.strip()` for ASCII whitespace. -/
def pyStrip (s : String) : String :=
  String.mk (((s.toList.dropWhile isPySpace).reverse.dropWhile isPySpace).reverse)

/-- The system message of `OpenRouterClient.get_move`. -/
def systemMessage : String :=
  "You are a chess engine that must obey instructions exactly."

/-- `OpenRouterClient._format_prompt`. -/
def formatPrompt (boardFen : String) (sanHistory : List String)
    (legalMoves : List String) : String :=
  "You are to choose the next legal chess move in Standard Algebraic Notation.\n" ++
  "Current board FEN: " ++ boardFen ++ "\n" ++
  "Moves so far: " ++
    (if sanHistory.isEmpty then "(none)" else String.intercalate " " sanHistory) ++ "\n" ++
  "Legal moves (SAN): " ++ String.intercalate ", " legalMoves ++ "\n" ++
  "Reply with exactly one line in the format `MOVE: <SAN>` where <SAN> is a string " ++
  "from the legal moves list. Do not include commentary or any other text."

/-- `OpenRouterClient._format_retry_prompt`. -/
def formatRetryPrompt (legalMoves : List String) : String :=
  "Your previous reply did not contain exactly one legal SAN move from the list. " ++
  "Respond again using the format `MOVE: <SAN>` choosing one move from this list only: " ++
  String.intercalate ", " legalMoves ++ "."

/-- The extraction loop of `get_move`: up to `_max_attempts = 3` replies,
each stripped and fed to `_extract_san`. -/
def tryAttempts (replies : List String) (legal : List String) :
    Nat → Nat → Except Unit String
  | 0, _ => .error ()
  | n + 1, i =>
    match extract_san (pyStrip (replies.getD i "")) legal with
    | some sanStr => .ok sanStr
    | none => tryAttempts replies legal n (i + 1)

/-- `OpenRouterClient.get_move(board_fen, san_history, legal_moves,
model_config)`, with the successive chat-completion reply contents
abstracted as `replies`: fails when the client is not started, fails with
`OpenRouterMoveError` when `legal_moves` is empty, otherwise normalizes
the legal list (strip, drop empties, `0 → O`) and runs the retry loop,
failing with `OpenRouterMoveError` after three fruitless attempts.
Transport errors are not modelled (they propagate unchanged). -/
def getMove (started : Bool) (replies : List String) (boardFen : String)
    (sanHistory : List String) (legalMovesArg : List String) :
    Except Bool String :=
  if !started then .error false
  else if legalMovesArg.isEmpty then .error true
  else
    let normalized := (legalMovesArg.filter fun mv => pyStrip mv != "").map
      fun mv => String.mk (replace0 (pyStrip mv).toList)
    match tryAttempts replies normalized 3 0 with
    | .ok sanStr => .ok sanStr
    | .error _ => .error true

end OpenRouter

namespace Orchestrator

/-- The exceptions a play loop can raise in the embedding:
`OpenRouterMoveError`, `StopIteration` (empty legal-move iterator in
`_fallback_move`), `TypeError` (wrong-arity call), and any engine or
transport failure. -/
inductive PlayError where
  | openRouterMove
  | stopIteration
  | typeError
  | engineFailure
deriving DecidableEq, Repr

/-- Orchestrator configuration relevant to move selection: the dry-run
flag and whether an OpenRouter client is configured (`self._openrouter is
not None`).  The engine is passed separately as an optional function. -/
structure PlayCfg where
  dryRun : Bool
  openrouterConfigured : Bool
deriving DecidableEq, Repr

/-- Required positional parameters of `OpenRouterClient.get_move` (after
`self`): `board_fen`, `san_history`, `legal_moves`, `model_config`. -/
def getMoveParamCount : Nat := 4

/-- Positional arguments supplied at the call site in
`GameOrchestrator._choose_model_move`: `board.fen()`, `san_history`,
`config` — the `legal_moves` parameter is never passed, so the call raises
`TypeError` before `get_move` runs. -/
def chooseModelMoveArgCount : Nat := 3

/-- `GameOrchestrator._next_scripted_move`: pop the queue head
unconditionally; discard it unless it parses as UCI and is legal in the
current position. -/
def nextScriptedMove (st : Chess.BoardState) (queue : List String) :
    Option Chess.Move × List String :=
  match queue with
  | [] => (none, [])
  | raw :: rest =>
    match Chess.parseUci raw with
    | none => (none, rest)
    | some m =>
      if (Chess.legalMoves st.pos).contains m then (some m, rest) else (none, rest)

/-- `GameOrchestrator._fallback_move`: the first generated legal move;
`next()` on an empty iterator raises `StopIteration`. -/
def fallbackMove (st : Chess.BoardState) : Except PlayError Chess.Move :=
  match Chess.legalMoves st.pos with
  | [] => .error .stopIteration
  | m :: _ => .ok m

/-- The SAN strings of the current legal moves. -/
def legalSanList (pos : Chess.Position) : List String :=
  (Chess.legalMoves pos).map fun m => Chess.san pos m

/-- `board.parse_san`: the legal move rendering to the given SAN. -/
def parseSanMove (pos : Chess.Position) (s : String) : Option Chess.Move :=
  (Chess.legalMoves pos).find? fun m => Chess.san pos m == s

/-- `GameOrchestrator._choose_model_move`: scripted move first; fallback
when in dry-run mode or no OpenRouter client is configured; otherwise the
`get_move` call — which supplies 3 positional arguments to a function with
4 required positional parameters and therefore raises `TypeError` at the
call (the guarded branch shows what a correctly-bound call would do). -/
def chooseModelMove (cfg : PlayCfg) (replies : List String)
    (st : Chess.BoardState) (queue : List String) (sanHistory : List String) :
    Except PlayError (Chess.Move × String) × List String :=
  match nextScriptedMove st queue with
  | (some m, q2) => (.ok (m, Chess.san st.pos m), q2)
  | (none, q2) =>
    if cfg.dryRun || !cfg.openrouterConfigured then
      match fallbackMove st with
      | .error e => (.error e, q2)
      | .ok m => (.ok (m, Chess.san st.pos m), q2)
    else
      if chooseModelMoveArgCount == getMoveParamCount then
        match OpenRouter.getMove true replies (Chess.fen st.pos) sanHistory
            (legalSanList st.pos) with
        | .error _ => (.error .openRouterMove, q2)
        | .ok sanStr =>
          match parseSanMove st.pos sanStr with
          | some m => (.ok (m, sanStr), q2)
          | none => (.error .openRouterMove, q2)
      else (.error .typeError, q2)

/-- `GameOrchestrator._choose_stockfish_move`: scripted move first;
fallback when in dry-run mode or no engine is configured; otherwise the
engine's choice (an abstract function that may raise). -/
def chooseStockfishMove (cfg : PlayCfg)
    (engine : Option (Chess.BoardState → Except PlayError Chess.Move))
    (st : Chess.BoardState) (queue : List String) :
    Except PlayError (Chess.Move × String) × List String :=
  match nextScriptedMove st queue with
  | (some m, q2) => (.ok (m, Chess.san st.pos m), q2)
  | (none, q2) =>
    match engine with
    | none =>
      match fallbackMove st with
      | .error e => (.error e, q2)
      | .ok m => (.ok (m, Chess.san st.pos m), q2)
    | some f =>
      if cfg.dryRun then
        match fallbackMove st with
        | .error e => (.error e, q2)
        | .ok m => (.ok (m, Chess.san st.pos m), q2)
      else
        match f st with
        | .error e => (.error e, q2)
        | .ok m => (.ok (m, Chess.san st.pos m), q2)

/-- The mutable state of the `while` loop in `_play_game`. -/
structure LoopState where
  st : Chess.BoardState
  queue : List String
  sanHistory : List String
  rows : List MoveRow
  ply : Nat
deriving DecidableEq, Repr

/-- One evaluation of the loop head and body: exit when the position is
terminal or the ply cap is passed; otherwise select a move for the side to
move (the model plays White), record it and advance. -/
inductive StepOutcome where
  | exit
  | fail (e : PlayError)
  | cont (ls : LoopState)
deriving DecidableEq, Repr

/-- `max_half_moves = 400`. -/
def maxHalfMoves : Nat := 400

/-- The local `model_is_white = True` of `_play_game`: the model always
plays White. -/
def modelIsWhite : Bool := true

def loopStep (cfg : PlayCfg) (replies : List String)
    (engine : Option (Chess.BoardState → Except PlayError Chess.Move))
    (gameId : Nat) (ls : LoopState) : StepOutcome :=
  if Chess.isGameOver ls.st || decide (maxHalfMoves < ls.ply) then .exit
  else
    match (if ls.st.pos.turn == .white && modelIsWhite then
        chooseModelMove cfg replies ls.st ls.queue ls.sanHistory
      else
        chooseStockfishMove cfg engine ls.st ls.queue) with
    | (.error e, _) => .fail e
    | (.ok (m, sanStr), q2) =>
      .cont
        { st := Chess.push ls.st m
          queue := q2
          sanHistory := ls.sanHistory ++ [sanStr]
          rows := ls.rows ++
            [⟨gameId, ls.ply,
              (if ls.st.pos.turn == .white then .white else .black), sanStr⟩]
          ply := ls.ply + 1 }

/-- The `while` loop of `_play_game`, fuelled one past the ply cap (the
cap condition exits before the fuel can run out). -/
def playLoop (cfg : PlayCfg) (replies : List String)
    (engine : Option (Chess.BoardState → Except PlayError Chess.Move))
    (gameId : Nat) : Nat → LoopState → LoopState × Option PlayError
  | 0, ls => (ls, none)
  | fuel + 1, ls =>
    match loopStep cfg replies engine gameId ls with
    | .exit => (ls, none)
    | .fail e => (ls, some e)
    | .cont ls2 => playLoop cfg replies engine gameId fuel ls2

/-- `GameOrchestrator._map_result`. -/
def mapResult (resultStr : String) (modelIsWhite : Bool) : GameResult :=
  if resultStr == "1-0" then (if modelIsWhite then .win else .loss)
  else if resultStr == "0-1" then (if modelIsWhite then .loss else .win)
  else .draw

/-- `GameOrchestrator._pgn_result_string`. -/
def pgnResultString : GameResult → String
  | .win => "1-0"
  | .loss => "0-1"
  | .draw => "1/2-1/2"

/-- The observable outcome of one `_play_game` call: the committed move
rows, the raised exception if any, and on normal completion the stored
result, move count, opening prefix and the transcript files written. -/
structure PlayGameResult where
  rows : List MoveRow
  err : Option PlayError
  result : Option GameResult
  movesCount : Nat
  opening : Option String
  pgnWrites : List String
deriving DecidableEq, Repr

/-- `GameOrchestrator._play_game`: run the loop from the standard initial
position, then (only on normal exit) map `board.result(claim_draw=True)`
from the model's perspective, stamp the move count and opening, and write
one PGN file.  An exception leaves the committed rows in place and the
game fields untouched. -/
def playGame (cfg : PlayCfg) (replies : List String)
    (engine : Option (Chess.BoardState → Except PlayError Chess.Move))
    (gameId : Nat) (scripted : List String) : PlayGameResult :=
  match playLoop cfg replies engine gameId (maxHalfMoves + 1)
      { st := Chess.initState, queue := scripted, sanHistory := [], rows := [],
        ply := 1 } with
  | (ls, some e) =>
    { rows := ls.rows, err := some e, result := none, movesCount := 0,
      opening := none, pgnWrites := [] }
  | (ls, none) =>
    { rows := ls.rows
      err := none
      result := some (mapResult (Chess.resultString ls.st) modelIsWhite)
      movesCount := ls.rows.length
      opening :=
        if !ls.sanHistory.isEmpty then
          some (String.intercalate " " (ls.sanHistory.take 6))
        else none
      pgnWrites := ["game_" ++ toString gameId ++ ".pgn"] }

end Orchestrator

namespace Chess

theorem gameOver_of_legal_isEmpty {st : BoardState}
    (h : (legalMoves st.pos).isEmpty = true) : isGameOver st = true := by
  unfold isGameOver
  cases hic : inCheck st.pos st.pos.turn with
  | false =>
    have hsm : isStalemate st.pos = true := by
      unfold isStalemate
      rw [hic, h]
      rfl
    simp [hsm]
  | true =>
    have hcm : isCheckmate st.pos = true := by
      unfold isCheckmate
      rw [hic, h]
      rfl
    simp [hcm]

theorem legal_not_isEmpty_of_not_gameOver {st : BoardState}
    (h : isGameOver st = false) : (legalMoves st.pos).isEmpty = false := by
  cases hile : (legalMoves st.pos).isEmpty with
  | false => rfl
  | true => rw [gameOver_of_legal_isEmpty hile] at h; exact absurd h (by simp)

end Chess

namespace Orchestrator

theorem fallbackMove_ok_of_not_gameOver {st : Chess.BoardState}
    (h : Chess.isGameOver st = false) : ∃ m, fallbackMove st = .ok m := by
  have hne := Chess.legal_not_isEmpty_of_not_gameOver h
  unfold fallbackMove
  cases hl : Chess.legalMoves st.pos with
  | nil => rw [hl] at hne; exact absurd hne (by simp)
  | cons m t => exact ⟨m, rfl⟩

theorem chooseModelMove_dryRun_not_error {cfg : PlayCfg} {replies : List String}
    {st : Chess.BoardState} {queue hist : List String}
    (hdr : cfg.dryRun = true) (hgo : Chess.isGameOver st = false) :
    ∀ e q, chooseModelMove cfg replies st queue hist ≠ (.error e, q) := by
  intro e q h
  unfold chooseModelMove at h
  cases hsc : nextScriptedMove st queue with
  | mk o q2 =>
    rw [hsc] at h
    cases o with
    | some m => simp at h
    | none =>
      rw [hdr] at h
      simp only [Bool.true_or, if_true] at h
      obtain ⟨m, hm⟩ := fallbackMove_ok_of_not_gameOver hgo
      rw [hm] at h
      simp at h

theorem chooseStockfishMove_dryRun_not_error {cfg : PlayCfg}
    {engine : Option (Chess.BoardState → Except PlayError Chess.Move)}
    {st : Chess.BoardState} {queue : List String}
    (hdr : cfg.dryRun = true) (hgo : Chess.isGameOver st = false) :
    ∀ e q, chooseStockfishMove cfg engine st queue ≠ (.error e, q) := by
  intro e q h
  unfold chooseStockfishMove at h
  cases hsc : nextScriptedMove st queue with
  | mk o q2 =>
    rw [hsc] at h
    cases o with
    | some m => simp at h
    | none =>
      obtain ⟨m, hm⟩ := fallbackMove_ok_of_not_gameOver hgo
      cases engine with
      | none =>
        rw [hm] at h
        simp at h
      | some f =>
        rw [hdr] at h
        simp only [if_true] at h
        rw [hm] at h
        simp at h

theorem loopStep_cont_spec {cfg : PlayCfg} {replies : List String}
    {engine : Option (Chess.BoardState → Except PlayError Chess.Move)}
    {gid : Nat} {ls ls2 : LoopState}
    (h : loopStep cfg replies engine gid ls = .cont ls2) :
    ls2.ply = ls.ply + 1 ∧ ls.ply ≤ maxHalfMoves ∧
      ∃ row, ls2.rows = ls.rows ++ [row] := by
  unfold loopStep at h
  split at h
  · exact absurd h (by simp)
  · next hcond =>
    have hple : ls.ply ≤ maxHalfMoves := by
      rcases Bool.or_eq_false_iff.mp (Bool.eq_false_iff.mpr hcond) with ⟨_, hd⟩
      exact Nat.le_of_not_lt (of_decide_eq_false hd)
    split at h
    · exact absurd h (by simp)
    · next m sanStr q2 heq =>
      have h2 := (StepOutcome.cont.injEq _ _).mp h
      subst h2
      exact ⟨rfl, hple, ⟨_, rfl⟩⟩

theorem loopStep_dryRun_not_fail {cfg : PlayCfg} {replies : List String}
    {engine : Option (Chess.BoardState → Except PlayError Chess.Move)}
    {gid : Nat} {ls : LoopState} (hdr : cfg.dryRun = true) :
    ∀ e, loopStep cfg replies engine gid ls ≠ .fail e := by
  intro e h
  unfold loopStep at h
  split at h
  · exact absurd h (by simp)
  · next hcond =>
    have hgo : Chess.isGameOver ls.st = false := by
      rcases Bool.or_eq_false_iff.mp (Bool.eq_false_iff.mpr hcond) with ⟨hg, _⟩
      exact hg
    split at h
    · next e2 q2 heq =>
      by_cases ht : (ls.st.pos.turn == Chess.Color.white && modelIsWhite) = true
      · rw [if_pos ht] at heq
        exact chooseModelMove_dryRun_not_error hdr hgo e2 q2 heq
      · rw [if_neg ht] at heq
        exact chooseStockfishMove_dryRun_not_error hdr hgo e2 q2 heq
    · exact absurd h (by simp)

theorem playLoop_cont_eq {cfg : PlayCfg} {replies : List String}
    {engine : Option (Chess.BoardState → Except PlayError Chess.Move)}
    {gid : Nat} {ls ls2 : LoopState}
    (h : loopStep cfg replies engine gid ls = .cont ls2) (fuel : Nat) :
    playLoop cfg replies engine gid (fuel + 1) ls
      = playLoop cfg replies engine gid fuel ls2 := by
  rw [playLoop, h]

theorem playLoop_dryRun_err_none {cfg : PlayCfg} {replies : List String}
    {engine : Option (Chess.BoardState → Except PlayError Chess.Move)}
    {gid : Nat} (hdr : cfg.dryRun = true) :
    ∀ (fuel : Nat) (ls : LoopState),
      (playLoop cfg replies engine gid fuel ls).2 = none := by
  intro fuel
  induction fuel with
  | zero => intro ls; rfl
  | succ n ih =>
    intro ls
    rw [playLoop]
    cases hs : loopStep cfg replies engine gid ls with
    | exit => rfl
    | fail e => exact absurd hs (loopStep_dryRun_not_fail hdr e)
    | cont ls2 => exact ih ls2

theorem playLoop_rows_le {cfg : PlayCfg} {replies : List String}
    {engine : Option (Chess.BoardState → Except PlayError Chess.Move)}
    {gid : Nat} :
    ∀ (fuel : Nat) (ls : LoopState), ls.ply = ls.rows.length + 1 →
      ls.rows.length ≤ maxHalfMoves →
      (playLoop cfg replies engine gid fuel ls).1.rows.length ≤ maxHalfMoves := by
  intro fuel
  induction fuel with
  | zero => intro ls _ hle; exact hle
  | succ n ih =>
    intro ls hinv hle
    rw [playLoop]
    cases hs : loopStep cfg replies engine gid ls with
    | exit => exact hle
    | fail e => exact hle
    | cont ls2 =>
      obtain ⟨hply, hcap, row, hrows⟩ := loopStep_cont_spec hs
      have hlen2 : ls2.rows.length = ls.rows.length + 1 := by
        rw [hrows, List.length_append]
        rfl
      refine ih ls2 ?_ ?_
      · rw [hply, hlen2, hinv]
      · rw [hlen2]
        have := hinv ▸ hcap
        omega

theorem playLoop_rows_extend {cfg : PlayCfg} {replies : List String}
    {engine : Option (Chess.BoardState → Except PlayError Chess.Move)}
    {gid : Nat} :
    ∀ (fuel : Nat) (ls : LoopState),
      ∃ t, (playLoop cfg replies engine gid fuel ls).1.rows = ls.rows ++ t := by
  intro fuel
  induction fuel with
  | zero => intro ls; exact ⟨[], (List.append_nil _).symm⟩
  | succ n ih =>
    intro ls
    rw [playLoop]
    cases hs : loopStep cfg replies engine gid ls with
    | exit => exact ⟨[], (List.append_nil _).symm⟩
    | fail e => exact ⟨[], (List.append_nil _).symm⟩
    | cont ls2 =>
      obtain ⟨_, _, row, hrows⟩ := loopStep_cont_spec hs
      obtain ⟨t, ht⟩ := ih ls2
      exact ⟨row :: t, by rw [ht, hrows, List.append_assoc]; rfl⟩

theorem playGame_rows (cfg : PlayCfg) (replies : List String)
    (engine : Option (Chess.BoardState → Except PlayError Chess.Move))
    (gid : Nat) (scripted : List String) :
    (playGame cfg replies engine gid scripted).rows
      = (playLoop cfg replies engine gid (maxHalfMoves + 1)
          { st := Chess.initState, queue := scripted, sanHistory := [], rows := [],
            ply := 1 }).1.rows := by
  unfold playGame
  rcases h : playLoop cfg replies engine gid (maxHalfMoves + 1)
    { st := Chess.initState, queue := scripted, sanHistory := [], rows := [],
      ply := 1 } with ⟨ls, err⟩
  cases err <;> rfl

theorem playGame_err_eq (cfg : PlayCfg) (replies : List String)
    (engine : Option (Chess.BoardState → Except PlayError Chess.Move))
    (gid : Nat) (scripted : List String)
    (h : (playLoop cfg replies engine gid (maxHalfMoves + 1)
        { st := Chess.initState, queue := scripted, sanHistory := [], rows := [],
          ply := 1 }).2 = none) :
    (playGame cfg replies engine gid scripted).err = none := by
  unfold playGame
  rcases hx : playLoop cfg replies engine gid (maxHalfMoves + 1)
    { st := Chess.initState, queue := scripted, sanHistory := [], rows := [],
      ply := 1 } with ⟨ls, err⟩
  rw [hx] at h
  cases err with
  | some e => simp at h
  | none => rfl

theorem playGame_result_isSome (cfg : PlayCfg) (replies : List String)
    (engine : Option (Chess.BoardState → Except PlayError Chess.Move))
    (gid : Nat) (scripted : List String)
    (h : (playLoop cfg replies engine gid (maxHalfMoves + 1)
        { st := Chess.initState, queue := scripted, sanHistory := [], rows := [],
          ply := 1 }).2 = none) :
    (playGame cfg replies engine gid scripted).result.isSome = true := by
  unfold playGame
  rcases hx : playLoop cfg replies engine gid (maxHalfMoves + 1)
    { st := Chess.initState, queue := scripted, sanHistory := [], rows := [],
      ply := 1 } with ⟨ls, err⟩
  rw [hx] at h
  cases err with
  | some e => simp at h
  | none => rfl

theorem playGame_pgnWrites_eq (cfg : PlayCfg) (replies : List String)
    (engine : Option (Chess.BoardState → Except PlayError Chess.Move))
    (gid : Nat) (scripted : List String)
    (h : (playLoop cfg replies engine gid (maxHalfMoves + 1)
        { st := Chess.initState, queue := scripted, sanHistory := [], rows := [],
          ply := 1 }).2 = none) :
    (playGame cfg replies engine gid scripted).pgnWrites
      = ["game_" ++ toString gid ++ ".pgn"] := by
  unfold playGame
  rcases hx : playLoop cfg replies engine gid (maxHalfMoves + 1)
    { st := Chess.initState, queue := scripted, sanHistory := [], rows := [],
      ply := 1 } with ⟨ls, err⟩
  rw [hx] at h
  cases err with
  | some e => simp at h
  | none => rfl

theorem playGame_movesCount_eq (cfg : PlayCfg) (replies : List String)
    (engine : Option (Chess.BoardState → Except PlayError Chess.Move))
    (gid : Nat) (scripted : List String)
    (h : (playLoop cfg replies engine gid (maxHalfMoves + 1)
        { st := Chess.initState, queue := scripted, sanHistory := [], rows := [],
          ply := 1 }).2 = none) :
    (playGame cfg replies engine gid scripted).movesCount
      = (playGame cfg replies engine gid scripted).rows.length := by
  unfold playGame
  rcases hx : playLoop cfg replies engine gid (maxHalfMoves + 1)
    { st := Chess.initState, queue := scripted, sanHistory := [], rows := [],
      ply := 1 } with ⟨ls, err⟩
  rw [hx] at h
  cases err with
  | some e => simp at h
  | none => rfl

end Orchestrator

/-- C1 (code bug): in a non-dry-run configuration with an OpenRouter client
configured, whenever no scripted move applies, `_choose_model_move` raises
`TypeError` instead of obtaining a move: the call site supplies 3 positional
arguments (`board.fen()`, `san_history`, `config`) to `get_move`, which has
4 required positional parameters (`board_fen`, `san_history`, `legal_moves`,
`model_config`).  The legal-move list is never sent and no returned notation
is ever parsed. -/
theorem model_move_call_arity_mismatch :
    Orchestrator.chooseModelMoveArgCount = 3 ∧
    Orchestrator.getMoveParamCount = 4 ∧
    (∀ (replies : List String) (st : Chess.BoardState) (q hist : List String),
      Orchestrator.chooseModelMove ⟨false, true⟩ replies st q hist
        = (match Orchestrator.nextScriptedMove st q with
          | (some m, q2) => (.ok (m, Chess.san st.pos m), q2)
          | (none, q2) => (.error .typeError, q2))) ∧
    (Orchestrator.chooseModelMove ⟨false, true⟩ [] Chess.initState [] []).1
      = .error .typeError := by
  refine ⟨rfl, rfl, ?_, rfl⟩
  intro replies st q hist
  unfold Orchestrator.chooseModelMove
  cases hsc : Orchestrator.nextScriptedMove st q with
  | mk o q2 => cases o <;> rfl

/-- C7: the play loop records at most 400 half-moves on every input
(including arbitrary engine behaviour and failing runs — the embedding is a
total function, so every run terminates); a run that completes without an
exception stores a result that is WIN, LOSS or DRAW; and `_map_result`
sends every result string other than exactly `"1-0"` and `"0-1"` to DRAW. -/
theorem game_loop_bounded_and_result_mapping :
    (∀ (cfg : Orchestrator.PlayCfg) (replies : List String)
        (engine : Option (Chess.BoardState → Except Orchestrator.PlayError Chess.Move))
        (gid : Nat) (scripted : List String),
        (Orchestrator.playGame cfg replies engine gid scripted).rows.length
          ≤ Orchestrator.maxHalfMoves) ∧
    (∀ (cfg : Orchestrator.PlayCfg) (replies : List String)
        (engine : Option (Chess.BoardState → Except Orchestrator.PlayError Chess.Move))
        (gid : Nat) (scripted : List String),
        (Orchestrator.playGame cfg replies engine gid scripted).err = none →
        ∃ r, (Orchestrator.playGame cfg replies engine gid scripted).result = some r ∧
          (r = .win ∨ r = .loss ∨ r = .draw)) ∧
    (∀ (s : String) (w : Bool), s ≠ "1-0" → s ≠ "0-1" →
        Orchestrator.mapResult s w = .draw) := by
  refine ⟨?_, ?_, ?_⟩
  · intro cfg replies engine gid scripted
    rw [Orchestrator.playGame_rows]
    exact Orchestrator.playLoop_rows_le _ _ rfl (by simp [Orchestrator.maxHalfMoves])
  · intro cfg replies engine gid scripted herr
    unfold Orchestrator.playGame at herr ⊢
    rcases h : Orchestrator.playLoop cfg replies engine gid
        (Orchestrator.maxHalfMoves + 1)
        { st := Chess.initState, queue := scripted, sanHistory := [], rows := [],
          ply := 1 } with ⟨ls, err⟩
    rw [h] at herr
    cases err with
    | some e => simp at herr
    | none =>
      refine ⟨Orchestrator.mapResult (Chess.resultString ls.st)
        Orchestrator.modelIsWhite, rfl, ?_⟩
      cases Orchestrator.mapResult (Chess.resultString ls.st)
          Orchestrator.modelIsWhite with
      | win => exact Or.inl rfl
      | loss => exact Or.inr (Or.inl rfl)
      | draw => exact Or.inr (Or.inr rfl)
  · intro s w h1 h2
    unfold Orchestrator.mapResult
    rw [if_neg (by simp [h1]), if_neg (by simp [h2])]

/-- Witness: the result-string mapping clause of the loop theorem at the
in-progress marker string. -/
theorem game_loop_result_mapping_witness :
    Orchestrator.mapResult "*" true = .draw :=
  game_loop_bounded_and_result_mapping.2.2 "*" true (by decide) (by decide)

namespace Orchestrator

/-- The dry-run configuration of the scripted scenario. -/
def c3cfg : PlayCfg := { dryRun := true, openrouterConfigured := false }

/-- The scripted move queue of the scenario. -/
def c3scripted : List String := ["e2e4", "e7e5", "g1f3", "b8c6", "f1c4", "g8f6"]

/-- The SANs of the scripted moves. -/
def c3sans : List String := ["e4", "e5", "Nf3", "Nc6", "Bc4", "Nf6"]

/-- The scripted moves in coordinate form. -/
def c3moves : List Chess.Move :=
  [⟨12, 28, none⟩, ⟨52, 36, none⟩, ⟨6, 21, none⟩, ⟨57, 42, none⟩,
    ⟨5, 26, none⟩, ⟨62, 45, none⟩]

/-- The Move rows the scripted prefix records. -/
def c3rows : List MoveRow :=
  [⟨1, 1, .white, "e4"⟩, ⟨1, 2, .black, "e5"⟩, ⟨1, 3, .white, "Nf3"⟩,
    ⟨1, 4, .black, "Nc6"⟩, ⟨1, 5, .white, "Bc4"⟩, ⟨1, 6, .black, "Nf6"⟩]

/-- Board state after the first `n` scripted moves. -/
def c3st : Nat → Chess.BoardState
  | 0 => Chess.initState
  | n + 1 => Chess.push (c3st n) (c3moves.getD n ⟨0, 0, none⟩)

/-- Loop state after the first `i` scripted moves. -/
def c3ls (i : Nat) : LoopState :=
  { st := c3st i, queue := c3scripted.drop i, sanHistory := c3sans.take i,
    rows := c3rows.take i, ply := i + 1 }

/-- One loop step of the scenario. -/
def c3step (ls : LoopState) : StepOutcome := loopStep c3cfg [] none 1 ls

/-- The loop state after the seventh step (the first fallback move past the
exhausted script). -/
def c3ls7 : LoopState :=
  match c3step (c3ls 6) with
  | .cont ls => ls
  | _ => c3ls 6

/-- The scripted dry-run game of the scenario. -/
def c3run : PlayGameResult := playGame c3cfg [] none 1 c3scripted

set_option maxRecDepth 40000 in
set_option maxHeartbeats 4000000 in
theorem c3_step0 : c3step (c3ls 0) = .cont (c3ls 1) := by decide

set_option maxRecDepth 40000 in
set_option maxHeartbeats 4000000 in
theorem c3_step1 : c3step (c3ls 1) = .cont (c3ls 2) := by decide

set_option maxRecDepth 40000 in
set_option maxHeartbeats 4000000 in
theorem c3_step2 : c3step (c3ls 2) = .cont (c3ls 3) := by decide

set_option maxRecDepth 40000 in
set_option maxHeartbeats 4000000 in
theorem c3_step3 : c3step (c3ls 3) = .cont (c3ls 4) := by decide

set_option maxRecDepth 40000 in
set_option maxHeartbeats 4000000 in
theorem c3_step4 : c3step (c3ls 4) = .cont (c3ls 5) := by decide

set_option maxRecDepth 40000 in
set_option maxHeartbeats 4000000 in
theorem c3_step5 : c3step (c3ls 5) = .cont (c3ls 6) := by decide

set_option maxRecDepth 40000 in
set_option maxHeartbeats 8000000 in
theorem c3_step6 : c3step (c3ls 6) = .cont c3ls7 := by decide

set_option maxRecDepth 40000 in
set_option maxHeartbeats 8000000 in
theorem c3_ls7_rows : c3ls7.rows.take 6 = c3rows ∧ c3ls7.rows.length = 7 := by decide

theorem c3_loop_seven (fuel : Nat) :
    playLoop c3cfg [] none 1 (fuel + 7) (c3ls 0)
      = playLoop c3cfg [] none 1 fuel c3ls7 :=
  calc playLoop c3cfg [] none 1 (fuel + 7) (c3ls 0)
      = playLoop c3cfg [] none 1 (fuel + 6) (c3ls 1) :=
        playLoop_cont_eq c3_step0 (fuel + 6)
    _ = playLoop c3cfg [] none 1 (fuel + 5) (c3ls 2) :=
        playLoop_cont_eq c3_step1 (fuel + 5)
    _ = playLoop c3cfg [] none 1 (fuel + 4) (c3ls 3) :=
        playLoop_cont_eq c3_step2 (fuel + 4)
    _ = playLoop c3cfg [] none 1 (fuel + 3) (c3ls 4) :=
        playLoop_cont_eq c3_step3 (fuel + 3)
    _ = playLoop c3cfg [] none 1 (fuel + 2) (c3ls 5) :=
        playLoop_cont_eq c3_step4 (fuel + 2)
    _ = playLoop c3cfg [] none 1 (fuel + 1) (c3ls 6) :=
        playLoop_cont_eq c3_step5 (fuel + 1)
    _ = playLoop c3cfg [] none 1 fuel c3ls7 :=
        playLoop_cont_eq c3_step6 fuel

theorem c3_rows_decomp : ∃ t, c3run.rows = c3ls7.rows ++ t := by
  have h1 : (playGame c3cfg [] none 1 c3scripted).rows
      = (playLoop c3cfg [] none 1 (maxHalfMoves + 1)
          { st := Chess.initState, queue := c3scripted, sanHistory := [], rows := [],
            ply := 1 }).1.rows :=
    playGame_rows c3cfg [] none 1 c3scripted
  have e2 : ({ st := Chess.initState, queue := c3scripted, sanHistory := [],
               rows := [], ply := 1 } : LoopState) = c3ls 0 := rfl
  have e1 : maxHalfMoves + 1 = 394 + 7 := rfl
  rw [e2, e1] at h1
  rw [c3_loop_seven 394] at h1
  obtain ⟨t, ht⟩ := playLoop_rows_extend 394 c3ls7
  have hc0 : c3run = playGame c3cfg [] none 1 c3scripted := rfl
  exact ⟨t, (congrArg PlayGameResult.rows hc0).trans (h1.trans ht)⟩

end Orchestrator

/-- C3 counterexample: the scripted dry-run game does not record exactly 6
Move rows — after the queue is exhausted the loop continues with fallback
moves, so a seventh row is committed. -/
theorem scripted_dry_run_not_exactly_six :
    Orchestrator.c3run.rows.length ≠ 6 := by
  obtain ⟨t, ht⟩ := Orchestrator.c3_rows_decomp
  have h7 := Orchestrator.c3_ls7_rows.2
  rw [ht, List.length_append, h7]
  omega

/-- C3 amended: the scripted dry-run game records the six scripted moves,
in order, as its first six Move rows, followed by at least one further
fallback-move row (so more than six rows in total); the play loop raises no
exception, the stored Game.result is non-null, exactly one transcript
artifact is produced, and the stored move count equals the number of
recorded rows. -/
theorem scripted_dry_run_prefix_and_result :
    Orchestrator.c3run.rows.take 6 = Orchestrator.c3rows ∧
    6 < Orchestrator.c3run.rows.length ∧
    Orchestrator.c3run.err = none ∧
    Orchestrator.c3run.result.isSome = true ∧
    Orchestrator.c3run.pgnWrites = ["game_1.pgn"] ∧
    Orchestrator.c3run.movesCount = Orchestrator.c3run.rows.length := by
  obtain ⟨t, ht⟩ := Orchestrator.c3_rows_decomp
  have h6 := Orchestrator.c3_ls7_rows.1
  have h7 := Orchestrator.c3_ls7_rows.2
  have herr : (Orchestrator.playLoop Orchestrator.c3cfg [] none 1
      (Orchestrator.maxHalfMoves + 1)
      { st := Chess.initState, queue := Orchestrator.c3scripted, sanHistory := [],
        rows := [], ply := 1 }).2 = none :=
    Orchestrator.playLoop_dryRun_err_none rfl _ _
  refine ⟨?_, ?_, ?_⟩
  · rw [ht, List.take_append_eq_append_take, h7,
      show (6 : Nat) - 7 = 0 from rfl, List.take_zero, List.append_nil]
    exact h6
  · rw [ht, List.length_append, h7]
    omega
  · have hc : Orchestrator.c3run
        = Orchestrator.playGame Orchestrator.c3cfg [] none 1
            Orchestrator.c3scripted := rfl
    rw [hc]
    refine ⟨Orchestrator.playGame_err_eq _ _ _ _ _ herr,
      Orchestrator.playGame_result_isSome _ _ _ _ _ herr,
      (Orchestrator.playGame_pgnWrites_eq _ _ _ _ _ herr).trans (by rfl),
      Orchestrator.playGame_movesCount_eq _ _ _ _ _ herr⟩

end Chessbench
